import Mathlib

/-!
Shallow embedding of the Twilight Tales game core
(`src/server/game-state-manager.ts`, the socket handler and the AI service)
together with proofs about the claimed properties of the round state
machine, voting, dealing and role assignment.

Randomness in the source (shuffles via `sort(() => Math.random() - 0.5)`,
`Math.random()` draws, random indexes) is modelled by explicit oracle
parameters; theorems that need a shuffle to be a shuffle take a
`List.Perm` hypothesis.  String identifiers (uuids) are kept as `String`.
JavaScript `null`/`undefined` fields become `Option`; JS string
truthiness (`""` is falsy) is modelled explicitly where the source
relies on it.
-/

namespace TwilightTales

/-- Round phases (the `roundStatus` constants of the shared schema:
waiting / selection / storytelling / voting / results / completed). -/
inductive RStatus
  | waiting
  | selection
  | storytelling
  | voting
  | results
  | completed
deriving DecidableEq, Repr

/-- Session status (the `gameStatus` constants: lobby / active / completed). -/
inductive GStatus
  | lobby
  | active
  | completed
deriving DecidableEq, Repr

/-- Card types (the `cardTypes` constants), plus the out-of-band
`"unknown"` string used by `dealCards` when a player has no assigned type. -/
inductive CType
  | location
  | character
  | initialTwist
  | escalation
  | finalTwist
  | unknown
deriving DecidableEq, Repr

/-- String form of a card type as used in template strings
(schema string constants, modelled: the schema file is not in `src/`). -/
def ctypeStr : CType → String
  | .location => "location"
  | .character => "character"
  | .initialTwist => "initialTwist"
  | .escalation => "escalation"
  | .finalTwist => "finalTwist"
  | .unknown => "unknown"

/-- A card: id, text, type, is-custom flag and the custom prompt. -/
structure Card where
  id : Nat
  text : String
  type : CType
  isCustom : Bool := false
  customPrompt : String := ""
deriving DecidableEq, Repr

/-- A player (`Player` in the shared schema).  `hand = []` models an
undefined hand, `none` models JS `null`/`undefined`. -/
structure Player where
  id : String
  name : String := ""
  isAI : Bool := false
  isHost : Bool := false
  score : Nat := 0
  currentCardType : Option CType := none
  hand : List Card := []
  selectedCard : Option Nat := none
  submittedMoral : Option String := none
  hasVoted : Bool := false
  isThinking : Bool := false
deriving DecidableEq, Repr

/-- A round-scoped submission record. -/
structure Submission where
  playerId : String
  cardId : Nat
  moral : Option String := none
  votes : Nat := 0
  hasVoted : Bool := false
deriving DecidableEq, Repr

/-- The per-session round state. -/
structure Round where
  number : Nat
  status : RStatus
  story : String
  submissions : List Submission
deriving DecidableEq, Repr

/-- Session settings. -/
structure Settings where
  maxPlayers : Nat := 5
  roundsToPlay : Nat := 3
deriving DecidableEq, Repr

/-- A game session (`Game` in the shared schema). -/
structure Game where
  gameId : String
  status : GStatus
  players : List Player
  round : Round
  settings : Settings
deriving DecidableEq, Repr

/-- Socket acknowledgment: `callback({success, error?})`. -/
structure Ack where
  success : Bool
  error : Option String := none
deriving DecidableEq, Repr

/-- Apply `f` to the first element satisfying `p`, keep the rest.
This is the JS pattern `const x = xs.find(p); if (x) mutate(x)`. -/
def updateFirst (p : α → Bool) (f : α → α) : List α → List α
  | [] => []
  | x :: xs => if p x then f x :: xs else x :: updateFirst p f xs

/-- Remove the first element satisfying `p` (JS `findIndex` + `splice`). -/
def removeFirst (p : α → Bool) : List α → List α
  | [] => []
  | x :: xs => if p x then xs else x :: removeFirst p xs

/-- Apply `f` to the element at index `i` (JS `xs[i].field = v` on a found index). -/
def modifyIdx (l : List α) (i : Nat) (f : α → α) : List α :=
  match l, i with
  | [], _ => []
  | x :: xs, 0 => f x :: xs
  | x :: xs, Nat.succ j => x :: modifyIdx xs j f

/-! ### Session creation and filling (game-state-manager.ts) -/

/-- Embedding of `createGame` (game-state-manager.ts:107).  The host is
stored with `score := 0, isHost := true`; settings are 5 players,
3 rounds; the round starts at number 0 in WAITING.  The random game id
is a parameter. -/
def createGame (host : Player) (gameId : String) : Game :=
  { gameId := gameId
    status := GStatus.lobby
    players := [{ host with score := 0, isHost := true }]
    round := { number := 0, status := RStatus.waiting, story := "", submissions := [] }
    settings := { maxPlayers := 5, roundsToPlay := 3 } }

/-- Embedding of `joinGame` (game-state-manager.ts:158): requires lobby
status and a free slot; the joining player is appended with `score := 0`. -/
def joinGame (g : Game) (player : Player) : Bool × Game :=
  if g.status ≠ GStatus.lobby then (false, g)
  else if g.settings.maxPlayers ≤ g.players.length then (false, g)
  else (true, { g with players := g.players ++ [{ player with score := 0 }] })

/-- Embedding of `addAIPlayers` (game-state-manager.ts:234):
`aiCount = min(maxPlayers - current, max(0, 5 - current))` simulated
players are appended.  Their random names and uuids are oracles indexed
by position. -/
def addAIPlayers (g : Game) (aiName aiId : Nat → String) : Game :=
  let totalPlayersNeeded := 5
  let currentHumanCount := g.players.length
  let aiCountNeeded := totalPlayersNeeded - currentHumanCount
  let availableSlots := g.settings.maxPlayers - currentHumanCount
  let aiCount := min availableSlots aiCountNeeded
  let newAIs := (List.range aiCount).map fun i =>
    ({ id := aiId i, name := aiName i, isAI := true, score := 0 } : Player)
  { g with players := g.players ++ newAIs }

/-! ### Role assignment and dealing -/

/-- The fixed ordered role-type list of `assignCardTypes`
(game-state-manager.ts:407). -/
def roleTypes : List CType :=
  [CType.location, CType.character, CType.initialTwist, CType.escalation, CType.finalTwist]

/-- The mutation of one `shuffledIndexes.forEach` step of
`assignCardTypes`: the visited player receives
`types[(i + roundOffset) % types.length]` for loop counter `i`. -/
def setRole (off i : Nat) (p : Player) : Player :=
  { p with
    currentCardType :=
      some (roleTypes.getD ((i + off) % roleTypes.length) CType.location) }

/-- Embedding of the `shuffledIndexes.forEach` loop of `assignCardTypes`:
the player at position `idx` receives `types[(i + offset) % 5]` where `i`
is the position of `idx` in the shuffled index list. -/
def assignLoop (offset : Nat) : Nat → List Player → List Nat → List Player
  | _, players, [] => players
  | i, players, idx :: rest =>
      assignLoop offset (i + 1) (modifyIdx players idx (setRole offset i)) rest

/-- Embedding of `assignCardTypes` (game-state-manager.ts:404).  The
shuffle `Array.from({length: n}, (_, i) => i).sort(() => Math.random() - 0.5)`
is passed in as `shuffledIndexes`; `roundOffset = (roundNumber - 1) % 5`. -/
def assignCardTypes (g : Game) (shuffledIndexes : List Nat) : Game :=
  let roundOffset := (g.round.number - 1) % roleTypes.length
  { g with players := assignLoop roundOffset 0 g.players shuffledIndexes }

/-- Embedding of `createBlankCard` (game-state-manager.ts:447). -/
def createBlankCard (t : CType) (id : Nat) : Card :=
  let typeName :=
    match (ctypeStr t).data with
    | [] => ""
    | c :: rest => String.mk (c.toUpper :: rest)
  { id := id, text := "", type := t, isCustom := true
    customPrompt := "Enter your custom " ++ typeName }

/-- Deck lookup of `dealCards`'s `switch (player.currentCardType)`:
no matching case leaves `deck = []`. -/
structure CardData where
  locationCards : List Card
  characterCards : List Card
  initialTwistCards : List Card
  escalationCards : List Card
  finalTwistCards : List Card
deriving Repr

/-- Deck selection by assigned card type. -/
def deckFor (cd : CardData) : Option CType → List Card
  | some CType.location => cd.locationCards
  | some CType.character => cd.characterCards
  | some CType.initialTwist => cd.initialTwistCards
  | some CType.escalation => cd.escalationCards
  | some CType.finalTwist => cd.finalTwistCards
  | _ => []

/-- Embedding of `getRandomCards` (game-state-manager.ts:528):
shuffle a copy of the deck and take the first `count` cards.
The shuffle is passed in as `perm`. -/
def getRandomCards (perm : List Card → List Card) (deck : List Card) (count : Nat) : List Card :=
  (perm deck).take count

/-- The per-player body of `dealCards` (game-state-manager.ts:464).
`permi` is the shuffle used for this player, `flagi` the outcome of
`Math.random() < CUSTOM_CARD_CHANCE` (consulted only for humans),
`ridxi` the random replacement index
`Math.floor(Math.random() * hand.length)` and `nextId` the custom
card id counter.  Assigning `hand[0]` on an empty JS array appends,
hence the `isEmpty` branch. -/
def dealPlayer (cd : CardData) (permi : List Card → List Card) (flagi : Bool)
    (ridxi nextId : Nat) (p : Player) : Player :=
  let deck := deckFor cd p.currentCardType
  let hand := getRandomCards permi deck 3
  if !p.isAI && flagi then
    let blank := createBlankCard (p.currentCardType.getD CType.unknown) nextId
    let hand2 := if hand.isEmpty then [blank] else hand.set ridxi blank
    { p with hand := hand2 }
  else
    { p with hand := hand }

/-- The `game.players.forEach` loop of `dealCards`, threading the
custom-card id counter (incremented exactly when a blank card was
dealt).  `i` is the player's position; `perm i`, `flag i` and `ridx i`
are that player's random draws. -/
def dealLoop (cd : CardData) (perm : Nat → List Card → List Card)
    (flag : Nat → Bool) (ridx : Nat → Nat) :
    Nat → Nat → List Player → List Player
  | _, _, [] => []
  | i, nextId, p :: rest =>
      dealPlayer cd (perm i) (flag i) (ridx i) nextId p ::
        dealLoop cd perm flag ridx (i + 1)
          (if !p.isAI && flag i then nextId + 1 else nextId) rest

/-- Embedding of `dealCards`: deal to every player in order, the custom
card id counter starting at `CUSTOM_CARD_ID_START = 10000`. -/
def dealCards (g : Game) (cd : CardData) (perm : Nat → List Card → List Card)
    (flag : Nat → Bool) (ridx : Nat → Nat) : Game :=
  { g with players := dealLoop cd perm flag ridx 0 10000 g.players }

/-! ### Story assembly and card selection -/

/-- The `selectedCards` map of `assembleStory` (game-state-manager.ts:751):
players are scanned in order, each player with a selection, a card type
and a matching card in hand overwrites the entry for their type (a later
player of the same type wins, as in the JS object assignment). -/
def collectSelected (players : List Player) : CType → Option Card :=
  players.foldl
    (fun acc p =>
      match p.selectedCard, p.currentCardType with
      | some cid, some t =>
          match p.hand.find? (fun c => c.id = cid) with
          | some c => fun t' => if t' = t then some c else acc t'
          | none => acc
      | _, _ => acc)
    (fun _ => none)

/-- Story text assembly of `assembleStory`: per-role connective
templates, with JS `||` defaults for falsy (empty) card text, joined
with a single space; a missing role contributes nothing. -/
def storyText (sel : CType → Option Card) : String :=
  let defTxt := fun (c : Card) (d : String) => if c.text.isEmpty then d else c.text
  let parts : List String :=
    (match sel CType.location with
     | some c => ["In a " ++ defTxt c "a mysterious place"]
     | none => []) ++
    (match sel CType.character with
     | some c => [", a " ++ defTxt c "strange character"]
     | none => []) ++
    (match sel CType.initialTwist with
     | some c => [" NOTICES " ++ defTxt c "something unusual"]
     | none => []) ++
    (match sel CType.escalation with
     | some c => [". But then, " ++ defTxt c "the situation escalates"]
     | none => []) ++
    (match sel CType.finalTwist with
     | some c => [" ALL BECAUSE " ++ defTxt c "a final twist occurs"]
     | none => [])
  String.intercalate " " parts

/-- Embedding of `assembleStory` (game-state-manager.ts:751): build the
story from the selected cards and (re)initialize one submission per
player (`cardId = player.selectedCard || 0`, null moral, zero votes,
has-voted false). -/
def assembleStory (g : Game) : Game :=
  let sel := collectSelected g.players
  { g with round :=
      { g.round with
        story := storyText sel
        submissions := g.players.map fun p =>
          { playerId := p.id, cardId := p.selectedCard.getD 0
            moral := none, votes := 0, hasVoted := false } } }

/-- JS string-option truthiness: `undefined` and `""` are falsy. -/
def truthyStr : Option String → Bool
  | none => false
  | some s => !s.isEmpty

/-- Embedding of `selectCard` (game-state-manager.ts:598): requires the
SELECTION phase, the player, and the card in the player's hand; custom
text overwrites a custom card's text; the selection is recorded; if
every player has now selected, the story is assembled and the phase
moves to STORYTELLING. -/
def selectCard (g : Game) (playerId : String) (cardId : Nat)
    (customText : Option String) : Bool × Game :=
  if g.round.status ≠ RStatus.selection then (false, g)
  else
    match g.players.find? (fun p => p.id = playerId) with
    | none => (false, g)
    | some player =>
        match player.hand.find? (fun c => c.id = cardId) with
        | none => (false, g)
        | some card =>
            let hand1 :=
              if card.isCustom && truthyStr customText then
                updateFirst (fun c => c.id = cardId)
                  (fun c => { c with text := customText.getD "" }) player.hand
              else player.hand
            let players1 := updateFirst (fun p => p.id = playerId)
              (fun p => { p with hand := hand1, selectedCard := some cardId }) g.players
            let g1 := { g with players := players1 }
            if g1.players.all (fun p => p.selectedCard.isSome) then
              let g2 := assembleStory g1
              (true, { g2 with round := { g2.round with status := RStatus.storytelling } })
            else (true, g1)

/-! ### AI service (ai-service.ts): fallback morals and simulated votes -/

/-- The fixed fallback moral strings of `generateFallbackMoral`. -/
def fallbackMorals : List String :=
  ["In life's twisted game, the cards we're dealt matter less than how we choose to play them.",
   "Sometimes the most frightening monsters are the ones we create in our own minds.",
   "Be careful what you wish for—the universe has a peculiar sense of humor.",
   "Reality is merely a thin veil, easily torn by those who look too closely.",
   "In trying to control fate, we often become puppets of our own design.",
   "The greatest deception is the one we perpetrate upon ourselves.",
   "The boundaries between imagination and reality are but shadows on the wall.",
   "Destiny follows no script but the one written by our choices.",
   "The key to wisdom is knowing that some doors are better left unopened.",
   "In the twilight between logic and fear lies the truth we dare not face."]

/-- Embedding of `generateFallbackMoral` (ai-service.ts): the moral at
index `story.length % fallbackMorals.length` (the `getD` default is
unreachable since the index is below the length). -/
def generateFallbackMoral (story : String) : String :=
  fallbackMorals.getD (story.length % fallbackMorals.length) ""

/-- Outcome of the external text-generation call raced against its
timeout: `ok text` carries the trimmed, prefix-stripped response text,
`err` is any rejection (timeout, API error). -/
inductive AIOutcome
  | ok (text : String)
  | err
deriving DecidableEq, Repr

/-- Embedding of `generateAIMoral` (ai-service.ts): with no API key or
an exceeded rate limit the fallback is returned; a successful response
is truncated to 150 characters; any error or timeout falls back to
`generateFallbackMoral`.  The function is total: no outcome surfaces
as an error. -/
def generateAIMoral (story : String) (keyAndRateOk : Bool) (outcome : AIOutcome) : String :=
  if !keyAndRateOk then generateFallbackMoral story
  else
    match outcome with
    | AIOutcome.ok t => if 150 < t.length then t.take 147 ++ "..." else t
    | AIOutcome.err => generateFallbackMoral story

/-- The per-submission vote weight computed inside `simulateAIVote`
(ai-service.ts:182): `humanFactor * lengthFactor * voteFactor`, where a
JS-falsy moral (`null` or `""`) yields `lengthFactor = 0.5`. -/
def subWeight (players : List Player) (sub : Submission) : ℚ :=
  let isHuman :=
    match players.find? (fun p => p.id = sub.playerId) with
    | some p => !p.isAI
    | none => false
  let humanFactor : ℚ := if isHuman then 2 else 1
  let lengthFactor : ℚ :=
    match sub.moral with
    | some m => if m.isEmpty then 1/2 else min (3/2) ((m.length : ℚ) / 50)
    | none => 1/2
  let voteFactor : ℚ := if sub.votes = 0 then 3/2 else 1 / ((sub.votes : ℚ) + 1)
  humanFactor * lengthFactor * voteFactor

/-- The selection loop of `simulateAIVote`: walk the candidates,
subtracting each weight from `random`; return the first candidate at
which the remainder drops to `≤ 0`. -/
def pickLoop : List (Submission × ℚ) → ℚ → Option String
  | [], _ => none
  | sw :: rest, random =>
      if random - sw.2 ≤ 0 then some sw.1.playerId else pickLoop rest (random - sw.2)

/-- Embedding of `simulateAIVote` (ai-service.ts:166): filter out the
voter's own submission; if nothing is left return `null`; otherwise
weighted random selection with `random = r * totalWeight` (`r` is the
`Math.random()` draw) and, should the loop fall through, a uniformly
random fallback pick (`Math.floor(Math.random() * n)`, always below `n`,
modelled as `fIdx % n`). -/
def simulateAIVote (submissions : List Submission) (aiPlayerId : String)
    (players : List Player) (r : ℚ) (fIdx : Nat) : Option String :=
  let votable := submissions.filter (fun s => s.playerId ≠ aiPlayerId)
  if votable.isEmpty then none
  else
    let weights := votable.map (subWeight players)
    let totalWeight := weights.sum
    let random := r * totalWeight
    match pickLoop (votable.zip weights) random with
    | some pid => some pid
    | none =>
        some ((votable.getD (fIdx % votable.length) { playerId := "", cardId := 0 }).playerId)

/-! ### Voting (game-state-manager.ts) -/

/-- Embedding of the synchronous mutation of `castVote`
(game-state-manager.ts:1155): requires the VOTING phase, both players,
and a non-self vote targeting an existing submission; marks the voter's
own submission (and the voter) as having voted when that submission
exists, and increments the votee's submission vote count.  The deferred
work triggered when all humans have voted (`makeAIVotes`, `endRound`)
runs in later continuations and is modelled separately. -/
def castVote (g : Game) (voterId votedForId : String) : Bool × Game :=
  if g.round.status ≠ RStatus.voting then (false, g)
  else
    match g.players.find? (fun p => p.id = voterId),
          g.players.find? (fun p => p.id = votedForId) with
    | some _, some _ =>
        if voterId = votedForId then (false, g)
        else
          match g.round.submissions.find? (fun s => s.playerId = votedForId) with
          | none => (false, g)
          | some _ =>
              let subs1 := updateFirst (fun s => s.playerId = voterId)
                (fun s => { s with hasVoted := true }) g.round.submissions
              let players1 :=
                if (g.round.submissions.find? (fun s => s.playerId = voterId)).isSome then
                  updateFirst (fun p => p.id = voterId)
                    (fun p => { p with hasVoted := true }) g.players
                else g.players
              let subs2 := updateFirst (fun s => s.playerId = votedForId)
                (fun s => { s with votes := s.votes + 1 }) subs1
              (true, { g with players := players1
                              round := { g.round with submissions := subs2 } })
    | _, _ => (false, g)

/-- Embedding of one simulated voter's committed vote inside
`makeAIVotes` (game-state-manager.ts:1282): mark the AI's own submission
(and the AI player) as having voted when that submission exists, then
let `simulateAIVote` choose a votee over the updated submission list and
increment that votee's vote count (clearing the thinking flag). -/
def aiVoteStep (g : Game) (aiId : String) (r : ℚ) (fIdx : Nat) : Game :=
  let subs1 := updateFirst (fun s => s.playerId = aiId)
    (fun s => { s with hasVoted := true }) g.round.submissions
  let players1 :=
    if (g.round.submissions.find? (fun s => s.playerId = aiId)).isSome then
      updateFirst (fun p => p.id = aiId)
        (fun p => { p with hasVoted := true }) g.players
    else g.players
  match simulateAIVote subs1 aiId players1 r fIdx with
  | some votedForId =>
      match subs1.find? (fun s => s.playerId = votedForId) with
      | some _ =>
          let subs2 := updateFirst (fun s => s.playerId = votedForId)
            (fun s => { s with votes := s.votes + 1 }) subs1
          let players2 := updateFirst (fun p => p.id = aiId)
            (fun p => { p with isThinking := false }) players1
          { g with players := players2
                   round := { g.round with submissions := subs2 } }
      | none =>
          { g with players := players1
                   round := { g.round with submissions := subs1 } }
  | none =>
      { g with players := players1
               round := { g.round with submissions := subs1 } }

/-! ### Round end, next round, leaving (game-state-manager.ts) -/

/-- Embedding of `endRound` (game-state-manager.ts:1378): a no-op when
already in RESULTS; otherwise each submission's votes are added to its
player's score, the round moves to RESULTS, and when the round number
has reached `roundsToPlay` the session is marked COMPLETED. -/
def endRound (g : Game) : Game :=
  if g.round.status = RStatus.results then g
  else
    let players1 := g.round.submissions.foldl
      (fun ps s => updateFirst (fun p => p.id = s.playerId)
        (fun p => { p with score := p.score + s.votes }) ps)
      g.players
    let g1 := { g with players := players1
                       round := { g.round with status := RStatus.results } }
    if g1.settings.roundsToPlay ≤ g1.round.number then
      { g1 with status := GStatus.completed }
    else g1

/-- Embedding of `startNewRound` (game-state-manager.ts:267): nothing
happens on a COMPLETED session; past the configured round count the
session and round are marked COMPLETED; otherwise the round number is
bumped (unless still WAITING), round state and player per-round state
are reset, and card types and hands are assigned with the given random
oracles. -/
def startNewRound (g : Game) (shuffledIndexes : List Nat) (cd : CardData)
    (perm : Nat → List Card → List Card) (flag : Nat → Bool) (ridx : Nat → Nat) : Game :=
  if g.status = GStatus.completed then g
  else if g.settings.roundsToPlay ≤ g.round.number then
    { g with status := GStatus.completed
             round := { g.round with status := RStatus.completed } }
  else
    let num := if g.round.status ≠ RStatus.waiting then g.round.number + 1 else g.round.number
    let players1 := g.players.map fun p =>
      { p with selectedCard := none, submittedMoral := none
               hasVoted := false, isThinking := false }
    let g1 := { g with players := players1
                       round := { number := num, status := RStatus.selection
                                  story := "", submissions := [] } }
    let g2 := assignCardTypes g1 shuffledIndexes
    dealCards g2 cd perm flag ridx

/-- Host reassignment inside `removePlayer` (game-state-manager.ts:1595):
when the removed player held the host flag and players remain, the first
human — or, failing that, the first player — becomes host. -/
def reassignHost (player : Player) (players1 : List Player) : List Player :=
  if player.isHost && 0 < players1.length then
    if players1.any (fun p => !p.isAI) then
      updateFirst (fun p => !p.isAI) (fun p => { p with isHost := true }) players1
    else
      match players1 with
      | [] => []
      | h :: t => { h with isHost := true } :: t
  else players1

/-- The ACTIVE-session adjustments at the end of `removePlayer`
(game-state-manager.ts:1611): drop the departing player's submission,
complete the session when no human remains, and advance a SELECTION or
STORYTELLING phase that the departure has just made complete. -/
def postRemove (g1 : Game) (playerId : String) : Game :=
  if g1.status = GStatus.active then
    let subs1 := removeFirst (fun s => s.playerId = playerId) g1.round.submissions
    let g2 : Game := { g1 with round := { g1.round with submissions := subs1 } }
    if (g2.players.filter (fun p => !p.isAI)).length < 1 then
      { g2 with status := GStatus.completed }
    else if g2.round.status = RStatus.selection then
      if g2.players.all (fun p => p.selectedCard.isSome) then
        let g3 := assembleStory g2
        { g3 with round := { g3.round with status := RStatus.storytelling } }
      else g2
    else if g2.round.status = RStatus.storytelling then
      if g2.round.submissions.all (fun s => s.moral.isSome) then
        { g2 with round := { g2.round with status := RStatus.voting } }
      else g2
    else g2
  else g1

/-- Embedding of `removePlayer` (game-state-manager.ts:1573): the player
is deleted from the list (never converted), a departing host hands the
flag on via `reassignHost`, an empty session is destroyed (`none`), and
an ACTIVE session is adjusted by `postRemove`. -/
def removePlayer (g : Game) (playerId : String) : Bool × Option Game :=
  match g.players.find? (fun p => p.id = playerId) with
  | none => (false, some g)
  | some player =>
      let players2 := reassignHost player (removeFirst (fun p => p.id = playerId) g.players)
      if players2.isEmpty then (true, none)
      else (true, some (postRemove { g with players := players2 } playerId))

/-! ### Socket handlers (socket-handler, src/unnamed/part_005) -/

/-- Embedding of the CAST_VOTE handler (part_005:466): the socket must
belong to this game (`authorized`), self-votes are rejected, the round
must be VOTING, the votee must have a truthy (non-null, non-empty)
moral, and then `castVote` runs. -/
def castVoteHandler (g : Game) (voterId votedForId : String)
    (authorized : Bool) : Ack × Game :=
  if !authorized then ({ success := false, error := some "Not authorized to cast a vote" }, g)
  else if voterId = votedForId then
    ({ success := false, error := some "Cannot vote for yourself" }, g)
  else if g.round.status ≠ RStatus.voting then
    ({ success := false, error := some "Game is not in voting phase" }, g)
  else
    match g.round.submissions.find? (fun s => s.playerId = votedForId) with
    | none => ({ success := false, error := some "Selected player has no moral submission" }, g)
    | some sub =>
        if !truthyStr sub.moral then
          ({ success := false, error := some "Selected player has no moral submission" }, g)
        else
          let res := castVote g voterId votedForId
          if res.1 then ({ success := true }, res.2)
          else ({ success := false, error := some "Failed to cast vote" }, res.2)

/-- Embedding of the NEXT_ROUND handler (part_005:605): the socket must
belong to this game (`authorized` — note: the handler never checks the
host flag); the round must be in RESULTS; a COMPLETED session is
acknowledged with success and left unchanged; otherwise `startNewRound`
runs. -/
def nextRoundHandler (g : Game) (authorized : Bool) (shuffledIndexes : List Nat)
    (cd : CardData) (perm : Nat → List Card → List Card)
    (flag : Nat → Bool) (ridx : Nat → Nat) : Ack × Game :=
  if !authorized then ({ success := false, error := some "Not authorized for this game" }, g)
  else if g.round.status ≠ RStatus.results then
    ({ success := false, error := some "Game is not ready for next round" }, g)
  else if g.status = GStatus.completed then ({ success := true }, g)
  else ({ success := true }, startNewRound g shuffledIndexes cd perm flag ridx)

/-! ### Helper lemmas about `updateFirst`, `removeFirst`, `modifyIdx` -/

theorem updateFirst_cons_pos {p : α → Bool} {f : α → α} {x : α} {xs : List α}
    (hx : p x = true) : updateFirst p f (x :: xs) = f x :: xs := by
  simp [updateFirst, hx]

theorem updateFirst_cons_neg {p : α → Bool} {f : α → α} {x : α} {xs : List α}
    (hx : p x = false) : updateFirst p f (x :: xs) = x :: updateFirst p f xs := by
  simp [updateFirst, hx]

theorem removeFirst_cons_pos {p : α → Bool} {x : α} {xs : List α}
    (hx : p x = true) : removeFirst p (x :: xs) = xs := by
  simp [removeFirst, hx]

theorem removeFirst_cons_neg {p : α → Bool} {x : α} {xs : List α}
    (hx : p x = false) : removeFirst p (x :: xs) = x :: removeFirst p xs := by
  simp [removeFirst, hx]

theorem updateFirst_of_not_any {p : α → Bool} {f : α → α} {l : List α}
    (h : l.any p = false) : updateFirst p f l = l := by
  induction l with
  | nil => rfl
  | cons x xs ih =>
      simp only [List.any_cons, Bool.or_eq_false_iff] at h
      rw [updateFirst_cons_neg h.1, ih h.2]

theorem sum_map_updateFirst_add {p : α → Bool} {f : α → α} {m : α → Nat} {d : Nat}
    {l : List α} (hf : ∀ x ∈ l, p x = true → m (f x) = m x + d)
    (hex : l.any p = true) :
    ((updateFirst p f l).map m).sum = (l.map m).sum + d := by
  induction l with
  | nil => simp at hex
  | cons x xs ih =>
      rcases hb : p x with _ | _
      · simp only [List.any_cons, hb, Bool.false_or] at hex
        rw [updateFirst_cons_neg hb]
        simp only [List.map_cons, List.sum_cons]
        rw [ih (fun y hy hpy => hf y (List.mem_cons_of_mem _ hy) hpy) hex]
        omega
      · rw [updateFirst_cons_pos hb]
        simp only [List.map_cons, List.sum_cons, hf x (List.mem_cons_self _ _) hb]
        omega

theorem sum_map_updateFirst_eq {p : α → Bool} {f : α → α} {m : α → Nat}
    {l : List α} (hf : ∀ x ∈ l, m (f x) = m x) :
    ((updateFirst p f l).map m).sum = (l.map m).sum := by
  induction l with
  | nil => rfl
  | cons x xs ih =>
      rcases hb : p x with _ | _
      · rw [updateFirst_cons_neg hb]
        simp only [List.map_cons, List.sum_cons]
        rw [ih (fun y hy => hf y (List.mem_cons_of_mem _ hy))]
      · rw [updateFirst_cons_pos hb]
        simp only [List.map_cons, List.sum_cons, hf x (List.mem_cons_self _ _)]

theorem countP_updateFirst_eq {p : α → Bool} {f : α → α} {q : α → Bool}
    {l : List α} (h : ∀ x ∈ l, q (f x) = q x) :
    (updateFirst p f l).countP q = l.countP q := by
  induction l with
  | nil => rfl
  | cons x xs ih =>
      rcases hb : p x with _ | _
      · rw [updateFirst_cons_neg hb]
        simp only [List.countP_cons]
        rw [ih (fun y hy => h y (List.mem_cons_of_mem _ hy))]
      · rw [updateFirst_cons_pos hb]
        simp only [List.countP_cons, h x (List.mem_cons_self _ _)]

theorem countP_updateFirst_add {p : α → Bool} {f : α → α} {q : α → Bool}
    {l : List α} (h : ∀ x ∈ l, p x = true → q x = false ∧ q (f x) = true)
    (hex : l.any p = true) :
    (updateFirst p f l).countP q = l.countP q + 1 := by
  induction l with
  | nil => simp at hex
  | cons x xs ih =>
      rcases hb : p x with _ | _
      · simp only [List.any_cons, hb, Bool.false_or] at hex
        rw [updateFirst_cons_neg hb]
        simp only [List.countP_cons]
        rw [ih (fun y hy hpy => h y (List.mem_cons_of_mem _ hy) hpy) hex]
        omega
      · obtain ⟨h1, h2⟩ := h x (List.mem_cons_self _ _) hb
        rw [updateFirst_cons_pos hb]
        simp [List.countP_cons, h1, h2]

theorem any_updateFirst_eq {p : α → Bool} {f : α → α} {r : α → Bool}
    {l : List α} (h : ∀ x ∈ l, r (f x) = r x) :
    (updateFirst p f l).any r = l.any r := by
  induction l with
  | nil => rfl
  | cons x xs ih =>
      rcases hb : p x with _ | _
      · rw [updateFirst_cons_neg hb]
        simp only [List.any_cons]
        rw [ih (fun y hy => h y (List.mem_cons_of_mem _ hy))]
      · rw [updateFirst_cons_pos hb]
        simp only [List.any_cons, h x (List.mem_cons_self _ _)]

theorem any_updateFirst_of_any {p : α → Bool} {f : α → α} {r : α → Bool}
    {l : List α} (h : ∀ x ∈ l, p x = true → r (f x) = true)
    (hex : l.any p = true) : (updateFirst p f l).any r = true := by
  induction l with
  | nil => simp at hex
  | cons x xs ih =>
      rcases hb : p x with _ | _
      · simp only [List.any_cons, hb, Bool.false_or] at hex
        rw [updateFirst_cons_neg hb]
        simp only [List.any_cons]
        rw [ih (fun y hy hpy => h y (List.mem_cons_of_mem _ hy) hpy) hex]
        simp
      · rw [updateFirst_cons_pos hb]
        simp [List.any_cons, h x (List.mem_cons_self _ _) hb]

theorem find?_updateFirst {p : α → Bool} {f : α → α} {l : List α} {x : α}
    (hx : l.find? p = some x) (hpf : p (f x) = true) :
    (updateFirst p f l).find? p = some (f x) := by
  induction l with
  | nil => simp at hx
  | cons y ys ih =>
      rcases hb : p y with _ | _
      · rw [List.find?_cons_of_neg _ (by simp [hb])] at hx
        rw [updateFirst_cons_neg hb]
        rw [List.find?_cons_of_neg _ (by simp [hb])]
        exact ih hx
      · rw [List.find?_cons_of_pos _ hb] at hx
        injection hx with hx
        subst hx
        rw [updateFirst_cons_pos hb]
        rw [List.find?_cons_of_pos _ hpf]

theorem mem_removeFirst_of_find? {p : α → Bool} {l : List α} {x y : α}
    (hx : x ∈ l) (hy : l.find? p = some y) (hne : x ≠ y) :
    x ∈ removeFirst p l := by
  induction l with
  | nil => simp at hx
  | cons z zs ih =>
      rcases hb : p z with _ | _
      · rw [List.find?_cons_of_neg _ (by simp [hb])] at hy
        rw [removeFirst_cons_neg hb]
        rcases List.mem_cons.mp hx with h | h
        · exact List.mem_cons.mpr (Or.inl h)
        · exact List.mem_cons.mpr (Or.inr (ih h hy))
      · rw [List.find?_cons_of_pos _ hb] at hy
        injection hy with hy
        subst hy
        rw [removeFirst_cons_pos hb]
        rcases List.mem_cons.mp hx with h | h
        · exact absurd h hne
        · exact h

theorem length_removeFirst_of_any {p : α → Bool} {l : List α}
    (hex : l.any p = true) : (removeFirst p l).length + 1 = l.length := by
  induction l with
  | nil => simp at hex
  | cons x xs ih =>
      rcases hb : p x with _ | _
      · simp only [List.any_cons, hb, Bool.false_or] at hex
        rw [removeFirst_cons_neg hb]
        simp only [List.length_cons]
        rw [← ih hex]
      · rw [removeFirst_cons_pos hb]
        simp

theorem countP_removeFirst_of_any {p : α → Bool} {l : List α}
    (hex : l.any p = true) : (removeFirst p l).countP p + 1 = l.countP p := by
  induction l with
  | nil => simp at hex
  | cons x xs ih =>
      rcases hb : p x with _ | _
      · simp only [List.any_cons, hb, Bool.false_or] at hex
        rw [removeFirst_cons_neg hb]
        simp only [List.countP_cons, hb]
        rw [← ih hex]
        simp
      · rw [removeFirst_cons_pos hb]
        simp [List.countP_cons, hb]

theorem length_updateFirst {p : α → Bool} {f : α → α} (l : List α) :
    (updateFirst p f l).length = l.length := by
  induction l with
  | nil => rfl
  | cons x xs ih =>
      rcases hb : p x with _ | _
      · rw [updateFirst_cons_neg hb]
        simp [ih]
      · rw [updateFirst_cons_pos hb]
        simp

theorem assembleStory_players (g : Game) : (assembleStory g).players = g.players := rfl

theorem postRemove_players (g1 : Game) (pid : String) :
    (postRemove g1 pid).players = g1.players := by
  simp only [postRemove]
  split_ifs <;> rfl

theorem postRemove_status_of_human (g1 : Game) (pid : String)
    (h : g1.players.any (fun p => !p.isAI) = true) :
    (postRemove g1 pid).status = g1.status := by
  have hlen : ¬ (g1.players.filter (fun p => !p.isAI)).length < 1 := by
    rcases (List.any_eq_true).mp h with ⟨x, hx, hq⟩
    have : x ∈ g1.players.filter (fun p => !p.isAI) := List.mem_filter.mpr ⟨hx, hq⟩
    have := List.length_pos.mpr (List.ne_nil_of_mem this)
    omega
  simp only [postRemove]
  split_ifs <;> rfl

theorem reassignHost_length (player : Player) (l : List Player) :
    (reassignHost player l).length = l.length := by
  unfold reassignHost
  split_ifs with h1 h2
  · exact length_updateFirst l
  · rcases l with _ | ⟨h, t⟩
    · rfl
    · rfl
  · rfl

theorem reassignHost_any_isHost {player : Player} {l : List Player}
    (hH : player.isHost = true) (hlen : 0 < l.length) :
    (reassignHost player l).any (fun p => p.isHost) = true := by
  unfold reassignHost
  rw [if_pos (by simp [hH, hlen])]
  by_cases hA : l.any (fun p => !p.isAI) = true
  · rw [if_pos hA]
    exact any_updateFirst_of_any (fun x _ _ => rfl) hA
  · rw [if_neg hA]
    rcases l with _ | ⟨h, t⟩
    · simp at hlen
    · simp

theorem reassignHost_of_not_host {player : Player} {l : List Player}
    (hH : player.isHost = false) : reassignHost player l = l := by
  unfold reassignHost
  rw [if_neg (by simp [hH])]

theorem reassignHost_any_eq {player : Player} {l : List Player} (r : Player → Bool)
    (h : ∀ x ∈ l, r { x with isHost := true } = r x) :
    (reassignHost player l).any r = l.any r := by
  unfold reassignHost
  split_ifs with h1 h2
  · exact any_updateFirst_eq (fun x hx => h x hx)
  · rcases l with _ | ⟨hd, t⟩
    · rfl
    · simp [List.any_cons, h hd (List.mem_cons_self _ _)]
  · rfl

theorem reassignHost_countP_eq {player : Player} {l : List Player} (q : Player → Bool)
    (h : ∀ x ∈ l, q { x with isHost := true } = q x) :
    (reassignHost player l).countP q = l.countP q := by
  unfold reassignHost
  split_ifs with h1 h2
  · exact countP_updateFirst_eq (fun x hx => h x hx)
  · rcases l with _ | ⟨hd, t⟩
    · rfl
    · simp [List.countP_cons, h hd (List.mem_cons_self _ _)]
  · rfl

/-! ### C10: host-flag invariant -/

/-- C10: every session with at least one remaining participant has a
participant carrying the host flag: `createGame` marks the creator as
host, and `removePlayer` — whenever it leaves the session alive —
preserves the existence of a host, reassigning the flag (first human,
else first participant) when the host departs. -/
theorem claim_host_flag_invariant :
    (∀ (host : Player) (gid : String),
        (createGame host gid).players.any (fun p => p.isHost) = true) ∧
    (∀ (g : Game) (pid : String) (g' : Game),
        g.players.any (fun p => p.isHost) = true →
        (removePlayer g pid).2 = some g' →
        g'.players.any (fun p => p.isHost) = true) := by
  constructor
  · intro host gid
    simp [createGame]
  · intro g pid g' hany hres
    rcases hfind : g.players.find? (fun p => p.id = pid) with _ | player
    · simp only [removePlayer, hfind] at hres
      injection hres with h
      subst h
      exact hany
    · simp only [removePlayer, hfind] at hres
      by_cases hemp :
          (reassignHost player (removeFirst (fun p => p.id = pid) g.players)).isEmpty = true
      · rw [if_pos hemp] at hres
        simp at hres
      · rw [if_neg hemp] at hres
        simp only [Option.some.injEq] at hres
        subst hres
        rw [postRemove_players]
        rcases hH : player.isHost with _ | _
        · rw [reassignHost_of_not_host hH]
          rcases List.any_eq_true.mp hany with ⟨x, hx, hxh⟩
          have hne : x ≠ player := by
            intro he
            rw [he, hH] at hxh
            exact Bool.noConfusion hxh
          exact List.any_eq_true.mpr
            ⟨x, mem_removeFirst_of_find? hx hfind hne, hxh⟩
        · have hlen : 0 < (removeFirst (fun p => p.id = pid) g.players).length := by
            by_contra hle
            push_neg at hle
            apply hemp
            have h0 : (removeFirst (fun p => p.id = pid) g.players).length = 0 :=
              Nat.le_zero.mp hle
            rw [List.isEmpty_iff_length_eq_zero,
              reassignHost_length player (removeFirst (fun p => p.id = pid) g.players), h0]
          exact reassignHost_any_isHost hH hlen

/-- Witness session for the host-flag invariant: the host `a` leaves a
two-player session and the flag passes to `b`. -/
def hostGame : Game :=
  { gameId := "HG"
    status := GStatus.lobby
    players := [{ id := "a", name := "Ada", isHost := true },
                { id := "b", name := "Bob" }]
    round := { number := 0, status := RStatus.waiting, story := "", submissions := [] }
    settings := {} }

/-- The session left behind once the host leaves `hostGame`. -/
def hostGameAfter : Game := ((removePlayer hostGame "a").2).getD hostGame

theorem claim_host_flag_invariant_witness :
    hostGameAfter.players.any (fun p => p.isHost) = true ∧
    (createGame { id := "w" } "WG").players.any (fun p => p.isHost) = true := by
  constructor
  · exact claim_host_flag_invariant.2 hostGame "a" hostGameAfter (by decide) (by decide)
  · exact claim_host_flag_invariant.1 { id := "w" } "WG"

/-! ### C1: duplicate votes are accepted by the code (a bug) -/

/-- A VOTING-phase session in which player `a` has already voted for `b`
(`a`'s submission carries the has-voted flag and `b` already holds one
vote): the failing input for the duplicate-vote claim. -/
def dupVoteGame : Game :=
  { gameId := "DUP"
    status := GStatus.active
    players := [{ id := "a", name := "Ada", isHost := true, hasVoted := true },
                { id := "b", name := "Bob" }]
    round := { number := 1, status := RStatus.voting, story := "s"
               submissions :=
                 [{ playerId := "a", cardId := 1, moral := some "ma", votes := 0, hasVoted := true },
                  { playerId := "b", cardId := 2, moral := some "mb", votes := 1, hasVoted := false }] }
    settings := {} }

/-- C1 (code bug): neither `castVote` nor the CAST_VOTE socket handler
checks the voter's has-voted flag, so a second vote from the same voter
is acknowledged with success and mutates the state: `b`'s vote count
climbs from 1 to 2 although `a` has already voted.  The claim (and the
spec) say a duplicate vote is rejected without mutation. -/
theorem claim_duplicate_vote_accepted_bug :
    (castVoteHandler dupVoteGame "a" "b" true).1.success = true ∧
    (castVote dupVoteGame "a" "b").1 = true ∧
    ((castVote dupVoteGame "a" "b").2.round.submissions.map (fun s => s.votes)) = [0, 2] ∧
    dupVoteGame.round.submissions.countP (fun s => s.hasVoted) = 1 := by
  refine ⟨?_, ?_, ?_, ?_⟩ <;> decide

/-! ### C9: deterministic fallback morals -/

/-- C9: the fallback moral is a deterministic function of the narrative,
selected purely by its length — equal-length narratives (in particular
two runs on the same narrative) give the same fallback string; every
failing or timed-out generation yields that fallback (never an error
value), and the fallback is always one of the ten fixed moral strings. -/
theorem claim_fallback_moral_deterministic :
    (∀ s t : String, s.length = t.length →
        generateFallbackMoral s = generateFallbackMoral t) ∧
    (∀ (story : String) (kr : Bool),
        generateAIMoral story kr AIOutcome.err = generateFallbackMoral story) ∧
    (∀ (story : String) (outcome : AIOutcome),
        generateAIMoral story false outcome = generateFallbackMoral story) ∧
    (∀ s : String, generateFallbackMoral s ∈ fallbackMorals) := by
  refine ⟨?_, ?_, ?_, ?_⟩
  · intro s t h
    simp [generateFallbackMoral, h]
  · intro story kr
    cases kr <;> rfl
  · intro story outcome
    rfl
  · intro s
    have hlt : s.length % fallbackMorals.length < fallbackMorals.length :=
      Nat.mod_lt _ (by decide)
    rw [generateFallbackMoral, List.getD_eq_getElem _ _ hlt]
    exact List.getElem_mem _

theorem claim_fallback_moral_deterministic_witness :
    generateFallbackMoral "abc" = generateFallbackMoral "xyz" ∧
    generateAIMoral "abc" true AIOutcome.err = generateFallbackMoral "abc" :=
  ⟨claim_fallback_moral_deterministic.1 "abc" "xyz" rfl,
   claim_fallback_moral_deterministic.2.1 "abc" true⟩

/-! ### C4: round/session completion and the NEXT_ROUND handler -/

/-- A COMPLETED 2-round session resting in RESULTS, with a non-host
member `z`: the input refuting the claim that further next-round
requests fail. -/
def doneGame : Game :=
  { gameId := "DONE"
    status := GStatus.completed
    players := [{ id := "h", name := "Host", isHost := true, score := 3 },
                { id := "z", name := "Zoe", score := 2 }]
    round := { number := 3, status := RStatus.results, story := "s", submissions := [] }
    settings := {} }

/-- Trivial random oracles for calls whose random branch is unreachable. -/
def noRand : (Nat → List Card → List Card) × (Nat → Bool) × (Nat → Nat) :=
  (fun _ d => d, fun _ => false, fun _ => 0)

/-- C4 counterexample: on the completed session the NEXT_ROUND handler
acknowledges with success (`{success := true}`), not with a failure as
the claim states, and leaves the session unchanged; the handler also
never consults the host flag (it is reachable by the non-host member). -/
theorem claim_next_round_counterexample :
    (nextRoundHandler doneGame true [] ⟨[], [], [], [], []⟩
        noRand.1 noRand.2.1 noRand.2.2).1 = { success := true } ∧
    (nextRoundHandler doneGame true [] ⟨[], [], [], [], []⟩
        noRand.1 noRand.2.1 noRand.2.2).2 = doneGame ∧
    (doneGame.players.filter (fun p => p.isHost = false)).length = 1 := by
  refine ⟨rfl, rfl, by decide⟩

/-- C4 (amended): once the round number reaches the configured
rounds-to-play and RESULTS is reached (`endRound`), the session status
becomes COMPLETED; every subsequent NEXT_ROUND request on the completed
session is acknowledged with *success* but leaves the session unchanged;
the handler accepts the request from any socket authorized for the
session (it performs no host check) and only while the round is in
RESULTS. -/
theorem claim_next_round_amended :
    ∀ (g : Game) (auth : Bool) (ixs : List Nat) (cd : CardData)
      (perm : Nat → List Card → List Card) (flag : Nat → Bool) (ridx : Nat → Nat),
      (auth = false →
        nextRoundHandler g auth ixs cd perm flag ridx =
          ({ success := false, error := some "Not authorized for this game" }, g)) ∧
      (auth = true → g.round.status ≠ RStatus.results →
        nextRoundHandler g auth ixs cd perm flag ridx =
          ({ success := false, error := some "Game is not ready for next round" }, g)) ∧
      (auth = true → g.round.status = RStatus.results → g.status = GStatus.completed →
        nextRoundHandler g auth ixs cd perm flag ridx = ({ success := true }, g)) ∧
      (auth = true → g.round.status = RStatus.results → g.status ≠ GStatus.completed →
        nextRoundHandler g auth ixs cd perm flag ridx =
          ({ success := true }, startNewRound g ixs cd perm flag ridx)) ∧
      (g.round.status ≠ RStatus.results → g.settings.roundsToPlay ≤ g.round.number →
        (endRound g).status = GStatus.completed ∧
        (endRound g).round.status = RStatus.results) := by
  intro g auth ixs cd perm flag ridx
  refine ⟨?_, ?_, ?_, ?_, ?_⟩
  · intro h
    subst h
    rfl
  · intro h hst
    subst h
    simp [nextRoundHandler, hst]
  · intro h hst hc
    subst h
    simp [nextRoundHandler, hst, hc]
  · intro h hst hc
    subst h
    simp [nextRoundHandler, hst, hc]
  · intro hst hn
    constructor
    · simp [endRound, hst, hn]
    · simp [endRound, hst, hn]

theorem claim_next_round_amended_witness :
    nextRoundHandler doneGame false [] ⟨[], [], [], [], []⟩
        noRand.1 noRand.2.1 noRand.2.2 =
      ({ success := false, error := some "Not authorized for this game" }, doneGame) :=
  (claim_next_round_amended doneGame false [] ⟨[], [], [], [], []⟩
      noRand.1 noRand.2.1 noRand.2.2).1 rfl

/-! ### C3: a disconnecting participant is deleted, not converted -/

theorem removeFirst_of_not_any {p : α → Bool} {l : List α}
    (h : l.any p = false) : removeFirst p l = l := by
  induction l with
  | nil => rfl
  | cons x xs ih =>
      simp only [List.any_cons, Bool.or_eq_false_iff] at h
      rw [removeFirst_cons_neg h.1, ih h.2]

theorem countP_removeFirst_of_le_one {p : α → Bool} {l : List α}
    (h : l.countP p ≤ 1) : (removeFirst p l).countP p = 0 := by
  by_cases hA : l.any p = true
  · have := countP_removeFirst_of_any hA
    omega
  · rw [removeFirst_of_not_any (Bool.not_eq_true _ ▸ hA)]
    rw [List.countP_eq_zero]
    intro x hx
    rcases hq : p x with _ | _
    · simp
    · exact absurd (List.any_eq_true.mpr ⟨x, hx, hq⟩) hA

theorem postRemove_submissions_countP (g1 : Game) (pid : String)
    (hact : g1.status = GStatus.active)
    (hp0 : g1.players.countP (fun p => p.id = pid) = 0)
    (hs1 : g1.round.submissions.countP (fun s => s.playerId = pid) ≤ 1) :
    (postRemove g1 pid).round.submissions.countP (fun s => s.playerId = pid) = 0 := by
  simp only [postRemove]
  split_ifs with h1 h2 h3 h4 h5
  · exact countP_removeFirst_of_le_one hs1
  · simp only [assembleStory]
    rw [List.countP_map]
    exact hp0
  · exact countP_removeFirst_of_le_one hs1
  · exact countP_removeFirst_of_le_one hs1
  · exact countP_removeFirst_of_le_one hs1
  · exact countP_removeFirst_of_le_one hs1

/-- C3 (amended): a participant who leaves while the session is ACTIVE
is deleted outright: `removePlayer` succeeds, the session keeps one
player fewer, no remaining participant carries the departed id, the
departed participant's submission is gone from the round, and — as long
as another human remains — the session simply stays ACTIVE with the
remaining players (no simulated stand-in is created and no score, role
or selection is carried over). -/
theorem claim_disconnect_removes_player :
    ∀ (g : Game) (pid : String) (player : Player),
      g.status = GStatus.active →
      g.players.find? (fun p => p.id = pid) = some player →
      g.players.countP (fun p => p.id = pid) = 1 →
      g.round.submissions.countP (fun s => s.playerId = pid) ≤ 1 →
      (∃ q ∈ g.players, q.isAI = false ∧ q.id ≠ pid) →
      (removePlayer g pid).1 = true ∧
      ∃ g', (removePlayer g pid).2 = some g' ∧
        g'.status = GStatus.active ∧
        g'.players.length + 1 = g.players.length ∧
        g'.players.countP (fun p => p.id = pid) = 0 ∧
        g'.round.submissions.countP (fun s => s.playerId = pid) = 0 := by
  intro g pid player hact hfind hcount hsub ⟨q, hq, hqh, hqid⟩
  have hpid : player.id = pid := by
    have := List.find?_some hfind
    simpa using this
  have hany : g.players.any (fun p => p.id = pid) = true :=
    List.any_eq_true.mpr ⟨player, List.mem_of_find?_eq_some hfind, by simp [hpid]⟩
  have hqne : q ≠ player := by
    intro he
    rw [he, hpid] at hqid
    exact hqid rfl
  have hqmem : q ∈ removeFirst (fun p => p.id = pid) g.players :=
    mem_removeFirst_of_find? hq hfind hqne
  have hany1 : (removeFirst (fun p => p.id = pid) g.players).any (fun p => !p.isAI) = true :=
    List.any_eq_true.mpr ⟨q, hqmem, by simp [hqh]⟩
  have hany2 :
      (reassignHost player (removeFirst (fun p => p.id = pid) g.players)).any
        (fun p => !p.isAI) = true := by
    rw [reassignHost_any_eq (fun p => !p.isAI) (fun x _ => rfl)]
    exact hany1
  have hlen2 :
      (reassignHost player (removeFirst (fun p => p.id = pid) g.players)).length + 1 =
        g.players.length := by
    rw [reassignHost_length]
    exact length_removeFirst_of_any hany
  have hemp :
      (reassignHost player (removeFirst (fun p => p.id = pid) g.players)).isEmpty = false := by
    rcases List.any_eq_true.mp hany2 with ⟨x, hx, _⟩
    rcases hL : reassignHost player (removeFirst (fun p => p.id = pid) g.players) with _ | ⟨a, t⟩
    · rw [hL] at hx
      simp at hx
    · rfl
  have hcnt2 :
      (reassignHost player (removeFirst (fun p => p.id = pid) g.players)).countP
        (fun p => p.id = pid) = 0 := by
    rw [reassignHost_countP_eq (fun p => p.id = pid) (fun x _ => rfl)]
    have := countP_removeFirst_of_any hany
    omega
  simp only [removePlayer, hfind, hemp, Bool.false_eq_true, if_false]
  refine ⟨trivial, _, rfl, ?_, ?_, ?_, ?_⟩
  · rw [postRemove_status_of_human _ _ hany2]
    exact hact
  · rw [postRemove_players]
    exact hlen2
  · rw [postRemove_players]
    exact hcnt2
  · exact postRemove_submissions_countP _ _ hact hcnt2 hsub

/-- Concrete ACTIVE mid-SELECTION session: the non-host human `bob`
(score 7, character role, card 11 already selected) disconnects. -/
def leaveGame : Game :=
  { gameId := "LV"
    status := GStatus.active
    players :=
      [{ id := "h", name := "Host", isHost := true,
         currentCardType := some CType.location,
         hand := [{ id := 1, text := "L1", type := CType.location }] },
       { id := "bob", name := "Bob", score := 7,
         currentCardType := some CType.character,
         hand := [{ id := 11, text := "C1", type := CType.character }],
         selectedCard := some 11 },
       { id := "ai1", name := "NeuralBot", isAI := true, score := 1,
         currentCardType := some CType.initialTwist,
         selectedCard := some 21 }]
    round := { number := 1, status := RStatus.selection, story := "", submissions := [] }
    settings := {} }

/-- C3 counterexample: when `bob` leaves `leaveGame` mid-round the code
deletes him: two players remain and none of them is a simulated stand-in
carrying his id, score 7, character role or selected card 11 — refuting
the claim that he is converted rather than deleted. -/
theorem claim_disconnect_counterexample :
    (removePlayer leaveGame "bob").1 = true ∧
    ((removePlayer leaveGame "bob").2.map (fun g => g.players.length)) = some 2 ∧
    ((removePlayer leaveGame "bob").2.map (fun g =>
        g.players.all (fun p =>
          (p.id ≠ "bob") && (p.score ≠ 7) &&
          (p.currentCardType ≠ some CType.character) && (p.selectedCard ≠ some 11)))) =
      some true := by
  refine ⟨?_, ?_, ?_⟩ <;> decide

theorem claim_disconnect_removes_player_witness :
    (removePlayer leaveGame "bob").1 = true :=
  (claim_disconnect_removes_player leaveGame "bob"
    { id := "bob", name := "Bob", score := 7,
      currentCardType := some CType.character,
      hand := [{ id := 11, text := "C1", type := CType.character }],
      selectedCard := some 11 }
    rfl (by decide) (by decide) (by decide)
    ⟨{ id := "h", name := "Host", isHost := true,
       currentCardType := some CType.location,
       hand := [{ id := 1, text := "L1", type := CType.location }] },
     by decide, rfl, by decide⟩).1

/-! ### C8: simulated vote selection -/

theorem pickLoop_mem {l : List (Submission × ℚ)} {r : ℚ} {pid : String}
    (h : pickLoop l r = some pid) : ∃ sw ∈ l, sw.1.playerId = pid := by
  induction l generalizing r with
  | nil => simp [pickLoop] at h
  | cons sw rest ih =>
      rw [pickLoop] at h
      by_cases hc : r - sw.2 ≤ 0
      · rw [if_pos hc] at h
        injection h with h
        exact ⟨sw, List.mem_cons_self _ _, h⟩
      · rw [if_neg hc] at h
        obtain ⟨sw', hm, hp⟩ := ih h
        exact ⟨sw', List.mem_cons_of_mem _ hm, hp⟩

/-- The vote weight exactly as the specification words it: humanBonus
(2.0 if the votee is human, else 1.0) × lengthFactor (min(1.5,
moralLength/50) when a moral exists, 0.5 otherwise) × underdogFactor
(1.5 if the votee has zero votes, else 1/(votes+1)). -/
def specVoteWeight (players : List Player) (sub : Submission) : ℚ :=
  (if (match players.find? (fun p => p.id = sub.playerId) with
       | some p => !p.isAI
       | none => false) = true then 2 else 1) *
  (match sub.moral with
   | some m => min (3/2) ((m.length : ℚ) / 50)
   | none => 1/2) *
  (if sub.votes = 0 then 3/2 else 1 / ((sub.votes : ℚ) + 1))

theorem subWeight_eq_specVoteWeight (players : List Player) (sub : Submission)
    (h : sub.moral ≠ some "") :
    subWeight players sub = specVoteWeight players sub := by
  unfold subWeight specVoteWeight
  rcases hm : sub.moral with _ | m
  · rfl
  · have hne : m.isEmpty = false := by
      rcases he : m.isEmpty with _ | _
      · rfl
      · exact absurd (by rw [hm, (String.isEmpty_iff m).mp he]) h
    simp only [hne, Bool.false_eq_true, if_false]

theorem simulateAIVote_isSome_of_ne {subs : List Submission} {aiId : String}
    {players : List Player} {r : ℚ} {fIdx : Nat}
    (hE : (subs.filter (fun s => s.playerId ≠ aiId)).isEmpty = false) :
    ∃ pid, simulateAIVote subs aiId players r fIdx = some pid := by
  simp only [simulateAIVote]
  rw [if_neg (by rw [hE]; exact Bool.false_ne_true)]
  rcases hpl : pickLoop ((subs.filter (fun s => s.playerId ≠ aiId)).zip
      ((subs.filter (fun s => s.playerId ≠ aiId)).map (subWeight players)))
      (r * ((subs.filter (fun s => s.playerId ≠ aiId)).map (subWeight players)).sum)
      with _ | pid
  · exact ⟨_, rfl⟩
  · exact ⟨pid, rfl⟩

theorem simulateAIVote_none_iff (subs : List Submission) (aiId : String)
    (players : List Player) (r : ℚ) (fIdx : Nat) :
    simulateAIVote subs aiId players r fIdx = none ↔
      subs.filter (fun s => s.playerId ≠ aiId) = [] := by
  constructor
  · intro h
    by_contra hne
    have hE : (subs.filter (fun s => s.playerId ≠ aiId)).isEmpty = false := by
      rcases hi : (subs.filter (fun s => s.playerId ≠ aiId)).isEmpty with _ | _
      · exact hi
      · exact absurd (List.isEmpty_iff.mp hi) hne
    obtain ⟨pid, hp⟩ := simulateAIVote_isSome_of_ne hE
    rw [h] at hp
    exact Option.noConfusion hp
  · intro h
    simp only [simulateAIVote]
    rw [if_pos (by rw [h]; rfl)]

theorem simulateAIVote_some_spec (subs : List Submission) (aiId : String)
    (players : List Player) (r : ℚ) (fIdx : Nat) (pid : String)
    (h : simulateAIVote subs aiId players r fIdx = some pid) :
    pid ≠ aiId ∧ ∃ s ∈ subs, s.playerId = pid := by
  simp only [simulateAIVote] at h
  by_cases hE : (subs.filter (fun s => s.playerId ≠ aiId)).isEmpty = true
  · rw [if_pos hE] at h
    exact Option.noConfusion h
  · rw [if_neg hE] at h
    have hmem : ∃ s ∈ subs.filter (fun s => s.playerId ≠ aiId), s.playerId = pid := by
      rcases hpl : pickLoop ((subs.filter (fun s => s.playerId ≠ aiId)).zip
          ((subs.filter (fun s => s.playerId ≠ aiId)).map (subWeight players)))
          (r * ((subs.filter (fun s => s.playerId ≠ aiId)).map (subWeight players)).sum)
          with _ | pid' <;> rw [hpl] at h
      · simp only [Option.some.injEq] at h
        have hlen : 0 < (subs.filter (fun s => s.playerId ≠ aiId)).length := by
          rcases hL : subs.filter (fun s => s.playerId ≠ aiId) with _ | ⟨a, t⟩
          · exact absurd (by rw [hL]; rfl) hE
          · rw [hL]
            simp
        have hidx : fIdx % (subs.filter (fun s => s.playerId ≠ aiId)).length <
            (subs.filter (fun s => s.playerId ≠ aiId)).length := Nat.mod_lt _ hlen
        refine ⟨(subs.filter (fun s => s.playerId ≠ aiId)).getD
            (fIdx % (subs.filter (fun s => s.playerId ≠ aiId)).length)
            { playerId := "", cardId := 0 }, ?_, by rw [h]⟩
        rw [List.getD_eq_getElem _ _ hidx]
        exact List.getElem_mem _
      · simp only [Option.some.injEq] at h
        obtain ⟨sw, hsw, hpw⟩ := pickLoop_mem hpl
        exact ⟨sw.1, (List.of_mem_zip hsw).1, by rw [← h, hpw]⟩
    obtain ⟨s, hsf, hsp⟩ := hmem
    have hf := List.mem_filter.mp hsf
    refine ⟨?_, s, hf.1, hsp⟩
    intro he
    have hnea : s.playerId ≠ aiId := by simpa using hf.2
    exact hnea (by rw [hsp, he])

/-- C8: the simulated voter never chooses itself — any returned votee is
one of the non-self submissions — and `null` comes back exactly when no
non-self submission exists; each candidate's weight (the `subWeight` the
selection loop runs on) equals the spec formula humanBonus × lengthFactor
× underdogFactor, for every submission whose moral is not the (in
practice unreachable) empty string. -/
theorem claim_simulated_vote_weighted :
    ∀ (subs : List Submission) (aiId : String) (players : List Player) (r : ℚ) (fIdx : Nat),
      (simulateAIVote subs aiId players r fIdx = none ↔
        subs.filter (fun s => s.playerId ≠ aiId) = []) ∧
      (∀ pid, simulateAIVote subs aiId players r fIdx = some pid →
        pid ≠ aiId ∧ ∃ s ∈ subs, s.playerId = pid) ∧
      (∀ sub ∈ subs, sub.moral ≠ some "" →
        subWeight players sub = specVoteWeight players sub) := by
  intro subs aiId players r fIdx
  exact ⟨simulateAIVote_none_iff subs aiId players r fIdx,
         fun pid h => simulateAIVote_some_spec subs aiId players r fIdx pid h,
         fun sub _ h => subWeight_eq_specVoteWeight players sub h⟩

/-- Sample submission and player pool for the weighted-vote witness. -/
def sampleSub : Submission :=
  { playerId := "b", cardId := 2, moral := some "short moral", votes := 0 }

/-- Sample player pool for the weighted-vote witness. -/
def samplePool : List Player :=
  [{ id := "a", isAI := true }, { id := "b" }]

theorem claim_simulated_vote_weighted_witness :
    subWeight samplePool sampleSub = specVoteWeight samplePool sampleSub :=
  (claim_simulated_vote_weighted [sampleSub] "a" samplePool (1/2) 0).2.2
    sampleSub (List.mem_cons_self _ _) (by decide)

/-! ### C2: sum of votes vs. number of recorded voters -/

/-- The claimed invariant: the sum of all Submission vote counts equals
the number of participants whose vote has been recorded in the round
(the has-voted flag on their own Submission). -/
def voteInvariant (r : Round) : Prop :=
  (r.submissions.map (fun s => s.votes)).sum =
    r.submissions.countP (fun s => s.hasVoted)

instance (r : Round) : Decidable (voteInvariant r) :=
  inferInstanceAs (Decidable ((r.submissions.map (fun s => s.votes)).sum =
    r.submissions.countP (fun s => s.hasVoted)))

theorem find?_some_of_any {p : α → Bool} {l : List α} (h : l.any p = true) :
    ∃ x, l.find? p = some x := by
  rcases hf : l.find? p with _ | x
  · rw [List.find?_eq_none] at hf
    obtain ⟨y, hy, hpy⟩ := List.any_eq_true.mp h
    exact absurd hpy (by simpa using hf y hy)
  · exact ⟨x, rfl⟩

/-- C2 (amended): the vote-sum invariant is preserved by `castVote`
whenever the voter has not yet voted (every submission of theirs still
carries has-voted = false) and both voter and votee submissions exist,
and by a simulated vote step whenever the simulated voter has not yet
voted, owns a submission, and at least one non-self submission exists.
(The unrestricted claim fails: a duplicate vote — which the code accepts
— raises the sum without raising the voter count.) -/
theorem claim_vote_sum_invariant :
    (∀ (g : Game) (voterId votedForId : String) (voter votee : Player),
      g.round.status = RStatus.voting →
      g.players.find? (fun p => p.id = voterId) = some voter →
      g.players.find? (fun p => p.id = votedForId) = some votee →
      voterId ≠ votedForId →
      g.round.submissions.any (fun s => s.playerId = votedForId) = true →
      g.round.submissions.any (fun s => s.playerId = voterId) = true →
      (∀ s ∈ g.round.submissions, s.playerId = voterId → s.hasVoted = false) →
      voteInvariant g.round →
      (castVote g voterId votedForId).1 = true ∧
      voteInvariant (castVote g voterId votedForId).2.round) ∧
    (∀ (g : Game) (aiId : String) (r : ℚ) (fIdx : Nat),
      g.round.submissions.any (fun s => s.playerId = aiId) = true →
      (∀ s ∈ g.round.submissions, s.playerId = aiId → s.hasVoted = false) →
      g.round.submissions.any (fun s => s.playerId ≠ aiId) = true →
      voteInvariant g.round →
      voteInvariant (aiVoteStep g aiId r fIdx).round) := by
  constructor
  · intro g voterId votedForId voter votee hst hv hw hne hws hvs hnv hinv
    obtain ⟨sv, hsv⟩ := find?_some_of_any hws
    simp only [castVote, hv, hw, hsv]
    rw [if_neg (by simp [hst]), if_neg hne]
    refine ⟨rfl, ?_⟩
    unfold voteInvariant at hinv ⊢
    simp only
    have hws1 : (updateFirst (fun s => s.playerId = voterId)
        (fun s => { s with hasVoted := true }) g.round.submissions).any
        (fun s => s.playerId = votedForId) = true := by
      rw [@any_updateFirst_eq Submission (fun s => s.playerId = voterId)
          (fun s => { s with hasVoted := true }) (fun s => s.playerId = votedForId)
          g.round.submissions (fun x _ => rfl)]
      exact hws
    rw [@sum_map_updateFirst_add Submission (fun s => s.playerId = votedForId)
          (fun s => { s with votes := s.votes + 1 }) (fun s => s.votes) 1
          (updateFirst (fun s => s.playerId = voterId)
            (fun s => { s with hasVoted := true }) g.round.submissions)
          (fun x _ _ => rfl) hws1,
        @sum_map_updateFirst_eq Submission (fun s => s.playerId = voterId)
          (fun s => { s with hasVoted := true }) (fun s => s.votes)
          g.round.submissions (fun x _ => rfl),
        @countP_updateFirst_eq Submission (fun s => s.playerId = votedForId)
          (fun s => { s with votes := s.votes + 1 }) (fun s => s.hasVoted)
          (updateFirst (fun s => s.playerId = voterId)
            (fun s => { s with hasVoted := true }) g.round.submissions)
          (fun x _ => rfl),
        @countP_updateFirst_add Submission (fun s => s.playerId = voterId)
          (fun s => { s with hasVoted := true }) (fun s => s.hasVoted)
          g.round.submissions
          (fun x hx hpx => ⟨hnv x hx (by simpa using hpx), rfl⟩) hvs,
        hinv]
  · intro g aiId r fIdx hvs hnv hother hinv
    simp only [aiVoteStep]
    have hother1 : (updateFirst (fun s => s.playerId = aiId)
        (fun s => { s with hasVoted := true }) g.round.submissions).any
        (fun s => s.playerId ≠ aiId) = true := by
      rw [@any_updateFirst_eq Submission (fun s => s.playerId = aiId)
          (fun s => { s with hasVoted := true }) (fun s => s.playerId ≠ aiId)
          g.round.submissions (fun x _ => rfl)]
      exact hother
    have hE : ((updateFirst (fun s => s.playerId = aiId)
        (fun s => { s with hasVoted := true }) g.round.submissions).filter
        (fun s => s.playerId ≠ aiId)).isEmpty = false := by
      obtain ⟨x, hx, hpx⟩ := List.any_eq_true.mp hother1
      rcases hL : (updateFirst (fun s => s.playerId = aiId)
          (fun s => { s with hasVoted := true }) g.round.submissions).filter
          (fun s => s.playerId ≠ aiId) with _ | ⟨a, t⟩
      · exact absurd (hL ▸ List.mem_filter.mpr ⟨hx, hpx⟩) (List.not_mem_nil x)
      · rw [hL]
        rfl
    unfold voteInvariant at hinv
    split
    · rename_i pid hp
      obtain ⟨hpa, s, hs, hsp⟩ := simulateAIVote_some_spec _ _ _ _ _ _ hp
      split
      · rename_i sv hsv
        unfold voteInvariant
        simp only
        have hany1 : (updateFirst (fun s => s.playerId = aiId)
            (fun s => { s with hasVoted := true }) g.round.submissions).any
            (fun s => s.playerId = pid) = true :=
          List.any_eq_true.mpr ⟨s, hs, by simp [hsp]⟩
        rw [@sum_map_updateFirst_add Submission (fun s => s.playerId = pid)
              (fun s => { s with votes := s.votes + 1 }) (fun s => s.votes) 1
              (updateFirst (fun s => s.playerId = aiId)
                (fun s => { s with hasVoted := true }) g.round.submissions)
              (fun x _ _ => rfl) hany1,
            @sum_map_updateFirst_eq Submission (fun s => s.playerId = aiId)
              (fun s => { s with hasVoted := true }) (fun s => s.votes)
              g.round.submissions (fun x _ => rfl),
            @countP_updateFirst_eq Submission (fun s => s.playerId = pid)
              (fun s => { s with votes := s.votes + 1 }) (fun s => s.hasVoted)
              (updateFirst (fun s => s.playerId = aiId)
                (fun s => { s with hasVoted := true }) g.round.submissions)
              (fun x _ => rfl),
            @countP_updateFirst_add Submission (fun s => s.playerId = aiId)
              (fun s => { s with hasVoted := true }) (fun s => s.hasVoted)
              g.round.submissions
              (fun x hx hpx => ⟨hnv x hx (by simpa using hpx), rfl⟩) hvs,
            hinv]
      · rename_i hnone
        exfalso
        have := List.find?_eq_none.mp hnone s hs
        exact this (by simp [hsp])
    · rename_i hp
      exfalso
      have h0 := (simulateAIVote_none_iff _ _ _ _ _).mp hp
      rw [h0] at hE
      exact Bool.noConfusion hE

/-- A VOTING-phase session satisfying the vote-sum invariant in which
`u` has already voted. -/
def invGame : Game :=
  { gameId := "INV"
    status := GStatus.active
    players := [{ id := "u", name := "Uma", isHost := true, hasVoted := true },
                { id := "v", name := "Vic" }]
    round := { number := 1, status := RStatus.voting, story := "t"
               submissions :=
                 [{ playerId := "u", cardId := 3, moral := some "mu", votes := 0, hasVoted := true },
                  { playerId := "v", cardId := 4, moral := some "mv", votes := 1, hasVoted := false }] }
    settings := {} }

/-- C2 counterexample: `invGame` satisfies the invariant (one vote cast,
one voter recorded), the code accepts a second `castVote` from `u`, and
afterwards the sum of votes is 2 while only one participant's vote is
recorded — the invariant is not preserved by every human `castVote`. -/
theorem claim_vote_sum_counterexample :
    voteInvariant invGame.round ∧
    (castVote invGame "u" "v").1 = true ∧
    ¬ voteInvariant (castVote invGame "u" "v").2.round := by
  refine ⟨by decide, by decide, by decide⟩

/-- A fresh VOTING-phase session in which nobody has voted yet. -/
def voteWGame : Game :=
  { gameId := "VW"
    status := GStatus.active
    players := [{ id := "a", name := "Ada", isHost := true },
                { id := "b", name := "Bob" }]
    round := { number := 1, status := RStatus.voting, story := "t"
               submissions :=
                 [{ playerId := "a", cardId := 1, moral := some "ma", votes := 0, hasVoted := false },
                  { playerId := "b", cardId := 2, moral := some "mb", votes := 0, hasVoted := false }] }
    settings := {} }

theorem claim_vote_sum_invariant_witness :
    (castVote voteWGame "a" "b").1 = true ∧
    voteInvariant (castVote voteWGame "a" "b").2.round :=
  claim_vote_sum_invariant.1 voteWGame "a" "b"
    { id := "a", name := "Ada", isHost := true }
    { id := "b", name := "Bob" }
    rfl (by decide) (by decide) (by decide) (by decide) (by decide)
    (by decide) (by decide)

/-! ### C7: card selection, phase advance and fresh submissions -/

/-- C7: a successful `selectCard` records the selecting participant's
card id; the phase advances from SELECTION to STORYTELLING exactly when
every participant (human and simulated) then holds a non-null selected
card, at which moment the narrative is assembled and exactly one fresh
Submission per participant is created — referencing that participant's
selected card, with null moral, zero votes and has-voted false; if any
participant has not yet selected, the round (phase and submissions)
stays untouched in SELECTION. -/
theorem claim_select_card_advances :
    ∀ (g : Game) (pid : String) (cid : Nat) (ct : Option String)
      (player : Player) (card : Card),
      g.round.status = RStatus.selection →
      g.players.find? (fun p => p.id = pid) = some player →
      player.hand.find? (fun c => c.id = cid) = some card →
      (selectCard g pid cid ct).1 = true ∧
      ((selectCard g pid cid ct).2.players.find? (fun p => p.id = pid)).map
          (fun p => p.selectedCard) = some (some cid) ∧
      ((selectCard g pid cid ct).2.players.all (fun p => p.selectedCard.isSome) = true →
        (selectCard g pid cid ct).2.round.status = RStatus.storytelling ∧
        (selectCard g pid cid ct).2.round.submissions =
          (selectCard g pid cid ct).2.players.map (fun p =>
            { playerId := p.id, cardId := p.selectedCard.getD 0
              moral := none, votes := 0, hasVoted := false })) ∧
      ((selectCard g pid cid ct).2.players.all (fun p => p.selectedCard.isSome) = false →
        (selectCard g pid cid ct).2.round = g.round ∧
        (selectCard g pid cid ct).2.round.status = RStatus.selection) := by
  intro g pid cid ct player card hst hp hc
  have hpid : player.id = pid := by simpa using List.find?_some hp
  set hand1 :=
    if card.isCustom && truthyStr ct then
      updateFirst (fun c => c.id = cid)
        (fun c => { c with text := ct.getD "" }) player.hand
    else player.hand with hh1
  set players1 := updateFirst (fun p => p.id = pid)
    (fun p => { p with hand := hand1, selectedCard := some cid }) g.players with hp1
  have hfind1 : players1.find? (fun p => p.id = pid) =
      some { player with hand := hand1, selectedCard := some cid } := by
    rw [hp1]
    exact find?_updateFirst hp (by simp [hpid])
  have hsel : selectCard g pid cid ct =
      if players1.all (fun p => p.selectedCard.isSome) then
        (true,
          { assembleStory { g with players := players1 } with
            round := { (assembleStory { g with players := players1 }).round with
                       status := RStatus.storytelling } })
      else (true, { g with players := players1 }) := by
    simp only [selectCard, hp, hc]
    rw [if_neg (by simp [hst])]
  by_cases hall : players1.all (fun p => p.selectedCard.isSome) = true
  · rw [hsel, if_pos hall]
    refine ⟨rfl, ?_, fun _ => ⟨rfl, rfl⟩, ?_⟩
    · show (players1.find? (fun p => p.id = pid)).map (fun p => p.selectedCard) =
        some (some cid)
      rw [hfind1]
      rfl
    · intro hf
      have hf' : players1.all (fun p => p.selectedCard.isSome) = false := hf
      rw [hall] at hf'
      exact Bool.noConfusion hf'
  · rw [hsel, if_neg hall]
    refine ⟨rfl, ?_, ?_, fun _ => ⟨rfl, hst⟩⟩
    · show (players1.find? (fun p => p.id = pid)).map (fun p => p.selectedCard) =
        some (some cid)
      rw [hfind1]
      rfl
    · intro htrue
      exact absurd htrue hall

/-- One-player SELECTION session for the selection witness. -/
def selGame : Game :=
  { gameId := "SEL"
    status := GStatus.active
    players := [{ id := "a", name := "Ada", isHost := true,
                  currentCardType := some CType.location,
                  hand := [{ id := 5, text := "the last library", type := CType.location }] }]
    round := { number := 1, status := RStatus.selection, story := "", submissions := [] }
    settings := {} }

theorem claim_select_card_advances_witness :
    (selectCard selGame "a" 5 none).1 = true ∧
    ((selectCard selGame "a" 5 none).2.players.find? (fun p => p.id = "a")).map
        (fun p => p.selectedCard) = some (some 5) :=
  ⟨(claim_select_card_advances selGame "a" 5 none
      { id := "a", name := "Ada", isHost := true,
        currentCardType := some CType.location,
        hand := [{ id := 5, text := "the last library", type := CType.location }] }
      { id := 5, text := "the last library", type := CType.location }
      rfl (by decide) (by decide)).1,
   (claim_select_card_advances selGame "a" 5 none
      { id := "a", name := "Ada", isHost := true,
        currentCardType := some CType.location,
        hand := [{ id := 5, text := "the last library", type := CType.location }] }
      { id := 5, text := "the last library", type := CType.location }
      rfl (by decide) (by decide)).2.1⟩

/-! ### C5: role assignment covers every role exactly once -/

/-- Position of the first occurrence of `j` in a list of indexes. -/
def posOf (j : Nat) : List Nat → Nat
  | [] => 0
  | x :: xs => if x = j then 0 else posOf j xs + 1

theorem get?_posOf {j : Nat} : ∀ {l : List Nat}, j ∈ l → l.get? (posOf j l) = some j := by
  intro l
  induction l with
  | nil => intro h; simp at h
  | cons x xs ih =>
      intro h
      by_cases hx : x = j
      · subst hx
        simp [posOf]
      · rcases List.mem_cons.mp h with h' | h'
        · exact absurd h'.symm hx
        · simp only [posOf, if_neg hx]
          simpa using ih h'

theorem posOf_lt_length {j : Nat} : ∀ {l : List Nat}, j ∈ l → posOf j l < l.length := by
  intro l
  induction l with
  | nil => intro h; simp at h
  | cons x xs ih =>
      intro h
      by_cases hx : x = j
      · simp [posOf, hx]
      · rcases List.mem_cons.mp h with h' | h'
        · exact absurd h'.symm hx
        · simp only [posOf, if_neg hx, List.length_cons]
          exact Nat.succ_lt_succ (ih h')

theorem modifyIdx_get? (f : α → α) :
    ∀ (l : List α) (i j : Nat),
      (modifyIdx l i f).get? j = if j = i then (l.get? j).map f else l.get? j := by
  intro l
  induction l with
  | nil => intro i j; simp [modifyIdx]
  | cons x xs ih =>
      intro i j
      cases i with
      | zero =>
          cases j with
          | zero => simp [modifyIdx]
          | succ j' => simp [modifyIdx]
      | succ i' =>
          cases j with
          | zero => simp [modifyIdx]
          | succ j' =>
              simp only [modifyIdx, List.get?_cons_succ]
              rw [ih i' j']
              by_cases hj : j' = i' <;> simp [hj]

theorem length_modifyIdx (f : α → α) :
    ∀ (l : List α) (i : Nat), (modifyIdx l i f).length = l.length := by
  intro l
  induction l with
  | nil => intro i; rfl
  | cons x xs ih =>
      intro i
      cases i with
      | zero => rfl
      | succ i' => simp [modifyIdx, ih i']

theorem length_assignLoop (offset : Nat) :
    ∀ (ixs : List Nat) (i0 : Nat) (ps : List Player),
      (assignLoop offset i0 ps ixs).length = ps.length := by
  intro ixs
  induction ixs with
  | nil => intro i0 ps; rfl
  | cons idx rest ih =>
      intro i0 ps
      simp only [assignLoop, ih, length_modifyIdx]

theorem assignLoop_get? (offset : Nat) :
    ∀ (ixs : List Nat) (i0 : Nat) (ps : List Player) (j : Nat),
      ixs.Nodup →
      (assignLoop offset i0 ps ixs).get? j =
        if j ∈ ixs then (ps.get? j).map (setRole offset (i0 + posOf j ixs))
        else ps.get? j := by
  intro ixs
  induction ixs with
  | nil =>
      intro i0 ps j _
      simp [assignLoop]
  | cons idx rest ih =>
      intro i0 ps j hnd
      have hnd' : rest.Nodup := (List.nodup_cons.mp hnd).2
      have hidxr : idx ∉ rest := (List.nodup_cons.mp hnd).1
      simp only [assignLoop]
      rw [ih (i0 + 1) _ j hnd']
      by_cases hj : j = idx
      · subst hj
        rw [if_neg (fun h => hidxr h)]
        rw [modifyIdx_get? _ _ _ _]
        rw [if_pos rfl, if_pos (List.mem_cons_self _ _)]
        simp [posOf, setRole]
      · rw [modifyIdx_get? _ _ _ _, if_neg hj]
        by_cases hjr : j ∈ rest
        · rw [if_pos hjr, if_pos (List.mem_cons_of_mem _ hjr)]
          have hne2 : ¬ idx = j := fun h => hj (Eq.symm h)
          have harith : i0 + 1 + posOf j rest = i0 + posOf j (idx :: rest) := by
            simp only [posOf, if_neg hne2]
            omega
          rw [harith]
        · rw [if_neg hjr, if_neg (fun h => by
            rcases List.mem_cons.mp h with h' | h'
            · exact hj h'
            · exact hjr h')]

/-- C5: with the session auto-filled to exactly 5 participants
(`addAIPlayers` tops any ≤ 5 humans up to 5), one round of
`assignCardTypes` — over any shuffled ordering of the 5 player positions
and with offset `(roundNumber − 1) % 5` — assigns the five fixed role
types so that the multiset of assigned roles is exactly the role list:
each of location, character, initialTwist, escalation and finalTwist
goes to exactly one participant. -/
theorem claim_role_assignment_exact :
    (∀ (g : Game) (aiName aiId : Nat → String),
       g.settings.maxPlayers = 5 → g.players.length ≤ 5 →
       (addAIPlayers g aiName aiId).players.length = 5) ∧
    (∀ (g : Game) (ixs : List Nat),
       g.players.length = 5 →
       ixs.Perm (List.range 5) →
       ((assignCardTypes g ixs).players.map (fun p => p.currentCardType)).Perm
         (roleTypes.map some)) := by
  constructor
  · intro g aiName aiId hmax hle
    simp only [addAIPlayers, List.length_append, List.length_map, List.length_range, hmax]
    omega
  · intro g ixs hlen hperm
    set off := (g.round.number - 1) % roleTypes.length with hoff
    have hlperm : ixs.length = 5 := by
      rw [hperm.length_eq, List.length_range]
    have hmem : ∀ j, j < 5 → j ∈ ixs := fun j hj =>
      (hperm.mem_iff).mpr (List.mem_range.mpr hj)
    have hchar : (assignCardTypes g ixs).players.map (fun p => p.currentCardType) =
        (List.range 5).map (fun j =>
          some (roleTypes.getD ((posOf j ixs + off) % roleTypes.length) CType.location)) := by
      apply List.ext_get?
      intro n
      rw [List.get?_map, List.get?_map]
      simp only [assignCardTypes]
      rw [← hoff]
      rw [assignLoop_get? off ixs 0 g.players n (hperm.nodup_iff.mpr (List.nodup_range 5))]
      by_cases hn : n < 5
      · rw [if_pos (hmem n hn)]
        have hget : g.players.get? n = some (g.players.get ⟨n, by rw [hlen]; exact hn⟩) :=
          List.get?_eq_get _
        rw [hget, List.get?_range hn]
        simp [setRole]
      · rw [if_neg (fun h => hn (List.mem_range.mp (hperm.mem_iff.mp h)))]
        rw [List.get?_eq_none.mpr (by rw [hlen]; omega),
            List.get?_eq_none.mpr (by rw [List.length_range]; omega)]
        rfl
    rw [hchar]
    have hinj : ∀ j1 ∈ List.range 5, ∀ j2 ∈ List.range 5,
        (posOf j1 ixs + off) % roleTypes.length = (posOf j2 ixs + off) % roleTypes.length →
        j1 = j2 := by
      intro j1 h1 j2 h2 heq
      have hm1 := hmem j1 (List.mem_range.mp h1)
      have hm2 := hmem j2 (List.mem_range.mp h2)
      have hp1 : posOf j1 ixs < 5 := hlperm ▸ posOf_lt_length hm1
      have hp2 : posOf j2 ixs < 5 := hlperm ▸ posOf_lt_length hm2
      have hmodeq : Nat.ModEq roleTypes.length (posOf j1 ixs + off) (posOf j2 ixs + off) := heq
      have hcan : Nat.ModEq roleTypes.length (posOf j1 ixs) (posOf j2 ixs) :=
        hmodeq.add_right_cancel' off
      have hpp : posOf j1 ixs = posOf j2 ixs := by
        have h5 : roleTypes.length = 5 := rfl
        have := hcan
        unfold Nat.ModEq at this
        rw [h5, Nat.mod_eq_of_lt hp1, Nat.mod_eq_of_lt hp2] at this
        exact this
      have := get?_posOf hm1
      rw [hpp, get?_posOf hm2] at this
      simpa using this.symm
    have hMperm : ((List.range 5).map
        (fun j => (posOf j ixs + off) % roleTypes.length)).Perm (List.range 5) := by
      have hnodup : ((List.range 5).map
          (fun j => (posOf j ixs + off) % roleTypes.length)).Nodup :=
        (List.nodup_range 5).map_on hinj
      have hsubset : ((List.range 5).map
          (fun j => (posOf j ixs + off) % roleTypes.length)) ⊆ List.range 5 := by
        intro k hk
        obtain ⟨j, _, hkj⟩ := List.mem_map.mp hk
        rw [← hkj]
        exact List.mem_range.mpr (Nat.mod_lt _ (by decide))
      exact (List.subperm_of_subset hnodup hsubset).perm_of_length_le
        (by simp)
    have hsplit : (List.range 5).map (fun j =>
        some (roleTypes.getD ((posOf j ixs + off) % roleTypes.length) CType.location)) =
        ((List.range 5).map (fun j => (posOf j ixs + off) % roleTypes.length)).map
          (fun k => some (roleTypes.getD k CType.location)) := by
      rw [List.map_map]
      rfl
    rw [hsplit]
    have hbase : (List.range 5).map (fun k => some (roleTypes.getD k CType.location)) =
        roleTypes.map some := by decide
    exact hbase ▸ hMperm.map (fun k => some (roleTypes.getD k CType.location))

/-- Constant name/id oracles for witnesses. -/
def botName : Nat → String := fun _ => "NeuralBot"

/-- Constant id oracle for witnesses. -/
def botId : Nat → String := fun n => "ai" ++ toString n

/-- Two-human lobby used for the role-assignment witness. -/
def roleGame : Game :=
  { gameId := "RG"
    status := GStatus.active
    players := [{ id := "a", isHost := true }, { id := "b" }, { id := "c" },
                { id := "d" }, { id := "e" }]
    round := { number := 2, status := RStatus.selection, story := "", submissions := [] }
    settings := {} }

theorem claim_role_assignment_exact_witness :
    ((assignCardTypes roleGame [2, 0, 4, 1, 3]).players.map
        (fun p => p.currentCardType)).Perm (roleTypes.map some) ∧
    (addAIPlayers { roleGame with players := [{ id := "a", isHost := true }] }
        botName botId).players.length = 5 :=
  ⟨claim_role_assignment_exact.2 roleGame [2, 0, 4, 1, 3] rfl (by decide),
   claim_role_assignment_exact.1
     { roleGame with players := [{ id := "a", isHost := true }] }
     botName botId rfl (by decide)⟩

/-! ### C6: dealing three distinct role-deck cards, with the custom-card swap -/

theorem countP_set (q : α → Bool) :
    ∀ (l : List α) (n : Nat) (b : α), n < l.length →
      (l.set n b).countP q + (if q (l.getD n b) then 1 else 0) =
        l.countP q + (if q b then 1 else 0) := by
  intro l
  induction l with
  | nil => intro n b h; simp at h
  | cons x xs ih =>
      intro n b h
      cases n with
      | zero =>
          simp only [List.set_cons_zero, List.countP_cons, List.getD_cons_zero]
          omega
      | succ n' =>
          simp only [List.set_cons_succ, List.countP_cons, List.getD_cons_succ]
          have := ih n' b (by simpa using h)
          omega

theorem nodup_set_of_not_mem :
    ∀ (l : List α) (n : Nat) (b : α), l.Nodup → b ∉ l → (l.set n b).Nodup := by
  intro l
  induction l with
  | nil => intro n b _ _; simp
  | cons x xs ih =>
      intro n b hnd hb
      cases n with
      | zero =>
          rw [List.set_cons_zero]
          rw [List.nodup_cons] at hnd ⊢
          exact ⟨fun hm => hb (List.mem_cons_of_mem _ hm), hnd.2⟩
      | succ n' =>
          rw [List.set_cons_succ]
          rw [List.nodup_cons] at hnd ⊢
          refine ⟨fun hm => ?_, ih n' b hnd.2 (fun hm => hb (List.mem_cons_of_mem _ hm))⟩
          rcases List.mem_or_eq_of_mem_set hm with hm' | hm'
          · exact hnd.1 hm'
          · exact hb (hm' ▸ List.mem_cons_self _ _)

theorem dealPlayer_spec (cd : CardData) (permi : List Card → List Card) (flagi : Bool)
    (ridxi nextId : Nat) (p : Player)
    (hperm : (permi (deckFor cd p.currentCardType)).Perm (deckFor cd p.currentCardType))
    (hdlen : 3 ≤ (deckFor cd p.currentCardType).length)
    (hnd : (deckFor cd p.currentCardType).Nodup)
    (hids : ∀ c ∈ deckFor cd p.currentCardType, c.id < 10000 ∧ c.isCustom = false)
    (hridx : ridxi < 3)
    (hnext : 10000 ≤ nextId) :
    (dealPlayer cd permi flagi ridxi nextId p).hand.length = 3 ∧
    (dealPlayer cd permi flagi ridxi nextId p).hand.Nodup ∧
    (p.isAI = true ∨ flagi = false →
      ∀ c ∈ (dealPlayer cd permi flagi ridxi nextId p).hand,
        c ∈ deckFor cd p.currentCardType) ∧
    (p.isAI = false → flagi = true →
      (dealPlayer cd permi flagi ridxi nextId p).hand.countP (fun c => c.isCustom) = 1 ∧
      (∀ c ∈ (dealPlayer cd permi flagi ridxi nextId p).hand,
        c.isCustom = false → c ∈ deckFor cd p.currentCardType) ∧
      (∀ c ∈ (dealPlayer cd permi flagi ridxi nextId p).hand,
        c.isCustom = true →
          10000 ≤ c.id ∧ c.id ∉ (deckFor cd p.currentCardType).map (fun d => d.id))) ∧
    (p.isAI = true → ∀ c ∈ (dealPlayer cd permi flagi ridxi nextId p).hand,
        c.isCustom = false) := by
  set deck := deckFor cd p.currentCardType with hdeck
  set hand := getRandomCards permi deck 3 with hhand
  have hlen3 : hand.length = 3 := by
    rw [hhand]
    simp only [getRandomCards, List.length_take, hperm.length_eq]
    omega
  have hsubset : ∀ c ∈ hand, c ∈ deck := by
    intro c hc
    exact hperm.subset (List.take_subset _ _ hc)
  have hndh : hand.Nodup := by
    rw [hhand]
    exact List.Nodup.sublist (List.take_sublist _ _) (hperm.nodup_iff.mpr hnd)
  have hempty : hand.isEmpty = false := by
    rcases hh : hand with _ | ⟨c0, crest⟩
    · rw [hh] at hlen3
      simp at hlen3
    · rfl
  by_cases hcond : (!p.isAI && flagi) = true
  · -- human that gets a blank custom card
    obtain ⟨hhuman, hflag⟩ := Bool.and_eq_true_iff.mp hcond
    have hhuman' : p.isAI = false := by
      rcases hb : p.isAI with _ | _
      · rfl
      · rw [hb] at hhuman
        exact Bool.noConfusion hhuman
    set blank := createBlankCard (p.currentCardType.getD CType.unknown) nextId with hblank
    have hres : dealPlayer cd permi flagi ridxi nextId p =
        { p with hand := hand.set ridxi blank } := by
      simp only [dealPlayer, hcond, if_true, ← hdeck, ← hhand, hempty,
        Bool.false_eq_true, if_false, hblank]
    have hblankCustom : blank.isCustom = true := rfl
    have hblankId : blank.id = nextId := rfl
    have hblankNotMem : blank ∉ hand := by
      intro hm
      have := (hids blank (hsubset blank hm)).1
      rw [hblankId] at this
      omega
    have hset : ∀ c ∈ hand.set ridxi blank, c ∈ hand ∨ c = blank :=
      fun c hc => List.mem_or_eq_of_mem_set hc
    have hridx3 : ridxi < hand.length := by
      rw [hlen3]
      exact hridx
    refine ⟨?_, ?_, ?_, ?_, ?_⟩
    · rw [hres]
      simp [hlen3]
    · rw [hres]
      exact nodup_set_of_not_mem hand ridxi blank hndh hblankNotMem
    · intro hcase
      rcases hcase with hAI | hflag'
      · rw [hAI] at hhuman'
        exact Bool.noConfusion hhuman'
      · rw [hflag] at hflag'
        exact Bool.noConfusion hflag'
    · intro _ _
      refine ⟨?_, ?_, ?_⟩
      · rw [hres]
        have hold : (hand.getD ridxi blank).isCustom = false := by
          have hget : hand.getD ridxi blank = hand.get ⟨ridxi, hridx3⟩ :=
            List.getD_eq_getElem _ _ hridx3
          rw [hget]
          exact (hids _ (hsubset _ (List.get_mem _ _ _))).2
        have hcnt0 : hand.countP (fun c => c.isCustom) = 0 := by
          rw [List.countP_eq_zero]
          intro c hc
          simp [(hids c (hsubset c hc)).2]
        have := countP_set (fun c => c.isCustom) hand ridxi blank hridx3
        simp only [hold, hcnt0, hblankCustom] at this
        simpa using this
      · intro c hc hcust
        rw [hres] at hc
        rcases hset c hc with hm | he
        · exact hsubset c hm
        · rw [he, hblankCustom] at hcust
          exact Bool.noConfusion hcust
      · intro c hc hcust
        rw [hres] at hc
        rcases hset c hc with hm | he
        · rw [(hids c (hsubset c hm)).2] at hcust
          exact Bool.noConfusion hcust
        · subst he
          refine ⟨by rw [hblankId]; exact hnext, ?_⟩
          intro hmem
          obtain ⟨d, hd, hdid⟩ := List.mem_map.mp hmem
          have := (hids d hd).1
          rw [hdid, hblankId] at this
          omega
    · intro hAI
      rw [hAI] at hhuman'
      exact Bool.noConfusion hhuman'
  · -- simulated player, or no blank card this time
    have hres : dealPlayer cd permi flagi ridxi nextId p = { p with hand := hand } := by
      simp only [dealPlayer, hcond, Bool.false_eq_true, if_false, ← hdeck, ← hhand]
    refine ⟨?_, ?_, ?_, ?_, ?_⟩
    · rw [hres]
      exact hlen3
    · rw [hres]
      exact hndh
    · intro _ c hc
      rw [hres] at hc
      exact hsubset c hc
    · intro hhuman' hflag'
      exfalso
      apply hcond
      rw [Bool.and_eq_true_iff]
      exact ⟨by rw [hhuman']; rfl, hflag'⟩
    · intro _ c hc
      rw [hres] at hc
      exact (hids c (hsubset c hc)).2

theorem dealLoop_get?_ex (cd : CardData) (perm : Nat → List Card → List Card)
    (flag : Nat → Bool) (ridx : Nat → Nat) :
    ∀ (ps : List Player) (i0 n0 k : Nat) (p : Player),
      ps.get? k = some p →
      ∃ n, n0 ≤ n ∧
        (dealLoop cd perm flag ridx i0 n0 ps).get? k =
          some (dealPlayer cd (perm (i0 + k)) (flag (i0 + k)) (ridx (i0 + k)) n p) := by
  intro ps
  induction ps with
  | nil => intro i0 n0 k p h; simp at h
  | cons q rest ih =>
      intro i0 n0 k p h
      cases k with
      | zero =>
          rw [List.get?_cons_zero] at h
          injection h with h
          subst h
          exact ⟨n0, le_refl _, by simp [dealLoop]⟩
      | succ k' =>
          rw [List.get?_cons_succ] at h
          obtain ⟨n, hn, hres⟩ :=
            ih (i0 + 1) (if !q.isAI && flag i0 then n0 + 1 else n0) k' p h
          refine ⟨n, le_trans (by split_ifs <;> omega) hn, ?_⟩
          simp only [dealLoop, List.get?_cons_succ]
          rw [hres]
          have harith : i0 + 1 + k' = i0 + (k' + 1) := by omega
          rw [harith]

/-- C6: for every round and participant, dealing produces a hand of
exactly 3 distinct cards taken from the deck matching the participant's
assigned role (given that deck holds at least 3 distinct cards with ids
below the custom range); when — and only when — the participant is
human and the 20%-chance draw fires, exactly one dealt card is a blank
custom card whose id lies at or above 10000 and collides with no deck
card id (the other two still come from the deck); a simulated
participant's hand never contains a custom card. -/
theorem claim_deal_three_distinct :
    ∀ (g : Game) (cd : CardData) (perm : Nat → List Card → List Card)
      (flag : Nat → Bool) (ridx : Nat → Nat) (k : Nat) (p : Player),
      g.players.get? k = some p →
      (perm k (deckFor cd p.currentCardType)).Perm (deckFor cd p.currentCardType) →
      3 ≤ (deckFor cd p.currentCardType).length →
      (deckFor cd p.currentCardType).Nodup →
      (∀ c ∈ deckFor cd p.currentCardType, c.id < 10000 ∧ c.isCustom = false) →
      ridx k < 3 →
      ∃ p', (dealCards g cd perm flag ridx).players.get? k = some p' ∧
        p'.hand.length = 3 ∧
        p'.hand.Nodup ∧
        (p.isAI = true ∨ flag k = false →
          ∀ c ∈ p'.hand, c ∈ deckFor cd p.currentCardType) ∧
        (p.isAI = false → flag k = true →
          p'.hand.countP (fun c => c.isCustom) = 1 ∧
          (∀ c ∈ p'.hand, c.isCustom = false → c ∈ deckFor cd p.currentCardType) ∧
          (∀ c ∈ p'.hand, c.isCustom = true →
            10000 ≤ c.id ∧
            c.id ∉ (deckFor cd p.currentCardType).map (fun d => d.id))) ∧
        (p.isAI = true → ∀ c ∈ p'.hand, c.isCustom = false) := by
  intro g cd perm flag ridx k p hget hperm hdlen hnd hids hridx
  obtain ⟨n, hn, hres⟩ := dealLoop_get?_ex cd perm flag ridx g.players 0 10000 k p hget
  rw [Nat.zero_add] at hres
  refine ⟨dealPlayer cd (perm k) (flag k) (ridx k) n p, ?_, ?_⟩
  · simp only [dealCards]
    exact hres
  · exact dealPlayer_spec cd (perm k) (flag k) (ridx k) n p hperm hdlen hnd hids hridx hn

/-- A small deck and a one-human session for the dealing witness. -/
def dealDeck : List Card :=
  [{ id := 1, text := "L1", type := CType.location },
   { id := 2, text := "L2", type := CType.location },
   { id := 3, text := "L3", type := CType.location }]

/-- Card data whose location deck is `dealDeck`. -/
def dealCD : CardData := { locationCards := dealDeck, characterCards := [],
                           initialTwistCards := [], escalationCards := [],
                           finalTwistCards := [] }

/-- One-human SELECTION session for the dealing witness. -/
def dealGame : Game :=
  { gameId := "DG"
    status := GStatus.active
    players := [{ id := "a", isHost := true,
                  currentCardType := some CType.location }]
    round := { number := 1, status := RStatus.selection, story := "", submissions := [] }
    settings := {} }

theorem claim_deal_three_distinct_witness :
    ((dealCards dealGame dealCD (fun _ d => d) (fun _ => true) (fun _ => 0)).players.get? 0).map
      (fun p => (p.hand.length, p.hand.countP (fun c => c.isCustom))) = some (3, 1) := by
  obtain ⟨p', hp', hlen, _, _, hcust, _⟩ :=
    claim_deal_three_distinct dealGame dealCD (fun _ d => d) (fun _ => true) (fun _ => 0)
      0 { id := "a", isHost := true, currentCardType := some CType.location }
      (by decide) (by decide) (by decide) (by decide) (by decide) (by decide)
  rw [hp']
  obtain ⟨hcnt, _, _⟩ := hcust rfl rfl
  simp [hlen, hcnt]

end TwilightTales
